import Mathlib

/-!
Shallow embedding of the J1939 DTC parser library (src/dtc_parser/dtc_parser.c)
and verification of its specification claims.

Machine integers are modelled as `Nat` with explicit reductions: `% 2^32` where
`uint32_t` arithmetic can wrap (via `sub32`), `% 256` at every byte read (via
`get8`), and per-field reductions matching the C bit-field widths of `DTC_t`.
The fixed-size C arrays (candidate list, active list, multi-frame slot table,
slot data buffer) are modelled as lists; the in-place shift-removal loops of the
C code are modelled by structurally identical recursions.  The global mutable
state of the C translation unit is gathered in `ParserState`, and every C
function becomes a state-passing function.
-/

namespace DtcParser

/-- Modulus of `uint32_t` arithmetic. -/
def U32 : Nat := 2 ^ 32

/-- Unsigned 32-bit subtraction `a - b` with wraparound, as the C code computes
`timestamp - first_seen` etc. on `uint32_t`. -/
def sub32 (a b : Nat) : Nat := (a % U32 + (U32 - b % U32)) % U32

/-- Byte read from a frame or buffer: `uint8_t` elements, out-of-range defaults
to 0 (all in-code reads are in bounds; the default only totalises the model). -/
def get8 (d : List Nat) (i : Nat) : Nat := d.getD i 0 % 256

/-- Compile-time capacity of the candidate list. -/
def MAX_CANDIDATE_DTCS : Nat := 40

/-- Compile-time capacity of the active list. -/
def MAX_ACTIVE_DTCS : Nat := 20

/-- Compile-time number of multi-frame reassembly slots. -/
def MAX_CONCURRENT_MULTIFRAME : Nat := 4

/-- Compile-time capacity of a multi-frame slot's data buffer, in bytes. -/
def MAX_MULTIFRAME_DATA_SIZE : Nat := 256

/-- Decoded DTC record (C struct `DTC_t`, packed bit-fields). -/
structure DTC where
  src : Nat
  mil : Nat
  rsl : Nat
  awl : Nat
  pl : Nat
  spn : Nat
  fmi : Nat
  cm : Nat
  oc : Nat
deriving Repr, DecidableEq

/-- Construct a `DTC_t` value; assignment into the packed bit-fields truncates
each field to its declared width (src:8, lamps:2 each, spn:19, fmi:5, cm:1, oc:7). -/
def mkDTC (src mil rsl awl pl spn fmi cm oc : Nat) : DTC :=
  { src := src % 2 ^ 8, mil := mil % 2 ^ 2, rsl := rsl % 2 ^ 2, awl := awl % 2 ^ 2,
    pl := pl % 2 ^ 2, spn := spn % 2 ^ 19, fmi := fmi % 2 ^ 5, cm := cm % 2 ^ 1,
    oc := oc % 2 ^ 7 }

/-- Tracked DTC (C struct `DTC_Info_t`): record plus tracking metadata. -/
structure DTC_Info where
  dtc : DTC
  first_seen : Nat
  last_seen : Nat
  read_count : Nat
deriving Repr, DecidableEq

/-- One multi-frame reassembly slot (C struct `MultiFrameMessage`). -/
structure MultiFrameMessage where
  message_id : Nat
  message_id_tp_dt : Nat
  total_size : Nat
  num_packets : Nat
  received_packets : Nat
  first_seen : Nat
  last_seen : Nat
  data : List Nat
deriving Repr, DecidableEq

/-- Runtime filtering configuration (C struct `DtcParseConfig_t`). -/
structure DtcParseConfig where
  dtc_active_read_count : Nat
  dtc_active_time_window : Nat
  debounce_dtc_inactive_time : Nat
  timeout_multi_frame : Nat
deriving Repr, DecidableEq

/-- Default configuration (`dtcParseCfg` initialiser in the C file). -/
def dtcParseCfg : DtcParseConfig :=
  { dtc_active_read_count := 10, dtc_active_time_window := 10,
    debounce_dtc_inactive_time := 20, timeout_multi_frame := 5 }

/-- The translation unit's mutable state: candidate and active lists, the slot
table, the changed flag, the mutex flag, and whether a callback is registered
(the callback body itself is external code; deliveries are reported as outputs). -/
structure ParserState where
  candidate_dtcs : List DTC_Info
  active_dtcs : List DTC_Info
  multi_frame_messages : List MultiFrameMessage
  changed_dtc_list : Bool
  dtc_mutex_taken : Bool
  callback_registered : Bool
deriving Repr, DecidableEq

/-- A zeroed slot (`memset(&multi_frame_messages[i], 0, sizeof ...)`); a slot is
free when `message_id == 0`. -/
def emptySlot : MultiFrameMessage :=
  { message_id := 0, message_id_tp_dt := 0, total_size := 0, num_packets := 0,
    received_packets := 0, first_seen := 0, last_seen := 0,
    data := List.replicate MAX_MULTIFRAME_DATA_SIZE 0 }

/-- The zero-initialised static state of the translation unit. -/
def initState (cb : Bool) : ParserState :=
  { candidate_dtcs := [], active_dtcs := [],
    multi_frame_messages := List.replicate MAX_CONCURRENT_MULTIFRAME emptySlot,
    changed_dtc_list := false, dtc_mutex_taken := false, callback_registered := cb }

/-- C `take_dtc_mutex`: non-blocking test-and-set, returns whether it was taken. -/
def take_dtc_mutex (s : ParserState) : ParserState × Bool :=
  if s.dtc_mutex_taken then (s, false) else ({ s with dtc_mutex_taken := true }, true)

/-- C `give_dtc_mutex`. -/
def give_dtc_mutex (s : ParserState) : ParserState :=
  { s with dtc_mutex_taken := false }

/-- The identity comparison of C `find_dtc`: `src`, `spn` and `fmi` all equal. -/
def keyMatches (src spn fmi : Nat) (f : DTC_Info) : Bool :=
  f.dtc.src == src && f.dtc.spn == spn && f.dtc.fmi == fmi

/-- C `find_dtc`: first list entry whose identity matches, if any. -/
def find_dtc (list : List DTC_Info) (src spn fmi : Nat) : Option DTC_Info :=
  list.find? (keyMatches src spn fmi)

/-- Write through the pointer returned by `find_dtc`: update the first matching
entry in place. -/
def update_first_match (p : DTC_Info → Bool) (g : DTC_Info → DTC_Info) :
    List DTC_Info → List DTC_Info
  | [] => []
  | f :: rest => if p f then g f :: rest else f :: update_first_match p g rest

/-- Refresh of the mutable attributes (`oc`, lamps) plus `last_seen`, as done on
an existing record in `update_dtc_status`; bit-field stores truncate. -/
def refresh_dtc (timestamp oc mil rsl awl pl : Nat) (f : DTC_Info) : DTC_Info :=
  let d := { f.dtc with
               oc := oc % 2 ^ 7
               mil := mil % 2 ^ 2
               rsl := rsl % 2 ^ 2
               awl := awl % 2 ^ 2
               pl := pl % 2 ^ 2 }
  { f with dtc := d, last_seen := timestamp }

/-- C `add_candidate_dtc`: append if below capacity, else drop. -/
def add_candidate_dtc (f : DTC_Info) (cands : List DTC_Info) : List DTC_Info :=
  if cands.length < MAX_CANDIDATE_DTCS then cands ++ [f] else cands

/-- C `add_active_dtc`: append and set the changed flag if below capacity, else
drop leaving the flag alone. -/
def add_active_dtc (f : DTC_Info) (acts : List DTC_Info) (changed : Bool) :
    List DTC_Info × Bool :=
  if acts.length < MAX_ACTIVE_DTCS then (acts ++ [f], true) else (acts, changed)

/-- The promotion criterion of `update_dtc_status` (lines 186-187): inside the
activation time window and enough observations. -/
def promoteCrit (cfg : DtcParseConfig) (timestamp : Nat) (f : DTC_Info) : Bool :=
  decide (sub32 timestamp f.first_seen ≤ cfg.dtc_active_time_window) &&
  decide (cfg.dtc_active_read_count ≤ f.read_count)

/-- The promotion sweep at the end of `update_dtc_status` (lines 184-196): scan
the candidate list in order; each candidate meeting the criterion is handed to
`add_active_dtc` and removed from the candidate list (shift plus index recheck
in C = recurse on the tail here). -/
def promoteLoop (cfg : DtcParseConfig) (timestamp : Nat) :
    List DTC_Info → List DTC_Info → Bool → List DTC_Info × List DTC_Info × Bool
  | [], acts, changed => ([], acts, changed)
  | f :: rest, acts, changed =>
    if promoteCrit cfg timestamp f then
      let r := add_active_dtc f acts changed
      promoteLoop cfg timestamp rest r.1 r.2
    else
      let r := promoteLoop cfg timestamp rest acts changed
      (f :: r.1, r.2.1, r.2.2)

/-- C `update_dtc_status`: refresh an existing active entry, else refresh and
count an existing candidate, else insert a new candidate; then run the
promotion sweep. -/
def update_dtc_status (cfg : DtcParseConfig)
    (timestamp src spn fmi cm oc mil rsl awl pl : Nat) (s : ParserState) :
    ParserState :=
  let s1 :=
    if (find_dtc s.active_dtcs src spn fmi).isSome then
      let acts := update_first_match (keyMatches src spn fmi)
        (refresh_dtc timestamp oc mil rsl awl pl) s.active_dtcs
      { s with active_dtcs := acts }
    else if (find_dtc s.candidate_dtcs src spn fmi).isSome then
      let cands := update_first_match (keyMatches src spn fmi)
        (fun f =>
          let f2 := refresh_dtc timestamp oc mil rsl awl pl f
          { f2 with read_count := (f.read_count + 1) % 2 ^ 16 }) s.candidate_dtcs
      { s with candidate_dtcs := cands }
    else
      let new_dtc_info : DTC_Info :=
        { dtc := mkDTC src mil rsl awl pl spn fmi cm oc
          first_seen := timestamp
          last_seen := timestamp
          read_count := 1 }
      { s with candidate_dtcs := add_candidate_dtc new_dtc_info s.candidate_dtcs }
  let r := promoteLoop cfg timestamp s1.candidate_dtcs s1.active_dtcs s1.changed_dtc_list
  { s1 with candidate_dtcs := r.1, active_dtcs := r.2.1, changed_dtc_list := r.2.2 }

/-- The SPN decoding of `process_dm1_message` at record offset `i`:
`(((data[i+2] >> 5) & 0x7) << 16) | ((data[i+1] << 8) & 0xFF00) | data[i]`.
The pre-loop check at line 202 is this expression at `i = 2`. -/
def dm1_spn (data : List Nat) (i : Nat) : Nat :=
  (((get8 data (i + 2) >>> 5) &&& 0x7) <<< 16) |||
    ((get8 data (i + 1) <<< 8) &&& 0xFF00) ||| get8 data i

/-- The record loop of `process_dm1_message`: `for (i = 2; i < length-2; i += 4)`,
decoding one record per iteration and feeding it to `update_dtc_status`. -/
def dm1Loop (cfg : DtcParseConfig) (src mil rsl awl pl : Nat) (data : List Nat)
    (length timestamp i : Nat) (s : ParserState) : ParserState :=
  if h : i < length - 2 then
    dm1Loop cfg src mil rsl awl pl data length timestamp (i + 4)
      (update_dtc_status cfg timestamp src (dm1_spn data i)
        (get8 data (i + 2) &&& 0x1F) ((get8 data (i + 3) >>> 7) &&& 0x01)
        (get8 data (i + 3) &&& 0x7F) mil rsl awl pl s)
  else s
termination_by length - 2 - i
decreasing_by omega

/-- C `process_dm1_message`: guard `length < 6`, guard first SPN zero, then run
the record loop with the lamp bits of header byte 0. -/
def process_dm1_message (cfg : DtcParseConfig) (can_id : Nat) (data : List Nat)
    (length timestamp : Nat) (s : ParserState) : ParserState :=
  if length < 6 then s
  else if dm1_spn data 2 = 0 then s
  else
    dm1Loop cfg (can_id &&& 0xFF) ((get8 data 0 >>> 6) &&& 0x03)
      ((get8 data 0 >>> 4) &&& 0x03) ((get8 data 0 >>> 2) &&& 0x03)
      (get8 data 0 &&& 0x03) data length timestamp 2 s

/-- Slot initialisation on a BAM (lines 287-294 of `handle_tp_cm_message`). -/
def initSlot (message_id total_size num_packets timestamp : Nat) : MultiFrameMessage :=
  { message_id := message_id,
    message_id_tp_dt := (message_id &&& 0xFF00FFFF) ||| 0x00EB0000,
    total_size := total_size, num_packets := num_packets, received_packets := 0,
    first_seen := timestamp, last_seen := timestamp,
    data := List.replicate MAX_MULTIFRAME_DATA_SIZE 0 }

/-- C `handle_tp_cm_message`: on a BAM control byte, decode size and count, drop
oversized announcements, reuse the slot with the same id else the first free
slot, and initialise it; drop the BAM if no slot is available. -/
def handle_tp_cm_message (can_id : Nat) (data : List Nat) (timestamp : Nat)
    (s : ParserState) : ParserState :=
  let message_id := can_id &&& 0x1FFFFFFF
  if get8 data 0 = 0x20 then
    let total_size := (get8 data 2 <<< 8) ||| get8 data 1
    let num_packets := get8 data 3
    if MAX_MULTIFRAME_DATA_SIZE < total_size then s
    else
      let k :=
        match s.multi_frame_messages.findIdx? (fun m => m.message_id == message_id) with
        | some i => some i
        | none => s.multi_frame_messages.findIdx? (fun m => m.message_id == 0)
      match k with
      | some i =>
        let slots := s.multi_frame_messages.set i
          (initSlot message_id total_size num_packets timestamp)
        { s with multi_frame_messages := slots }
      | none => s
  else s

/-- C `find_multi_frame_message` composed with index bookkeeping is expressed
with `List.findIdx?` on `message_id_tp_dt`. `remove_multi_frame_message` zeroes
the first slot whose `message_id_tp_dt` matches. -/
def remove_multi_frame_message (message_id_tp_dt : Nat) (s : ParserState) : ParserState :=
  match s.multi_frame_messages.findIdx? (fun m => m.message_id_tp_dt == message_id_tp_dt) with
  | some i => { s with multi_frame_messages := s.multi_frame_messages.set i emptySlot }
  | none => s

/-- The `memcpy(&message->data[offset], &data[1], 7)` of `handle_tp_dt_message`:
overwrite 7 bytes of the slot buffer at `offset` with bytes 1..7 of the frame.
Exact for in-bounds writes (`offset + 7 ≤ buffer length`); the out-of-bounds
case is undefined behaviour in the C source. -/
def memcpy7 (buf : List Nat) (offset : Nat) (frame : List Nat) : List Nat :=
  buf.take offset ++ (List.range 7).map (fun j => get8 frame (1 + j)) ++
    buf.drop (offset + 7)

/-- C `handle_tp_dt_message` up to (and excluding) the dispatch into
`process_dm1_message`: look up the slot, enforce strict packet order (releasing
the whole slot on violation), copy the fragment, and report the completed
payload `(message_id, buffer, total_size)` when the declared count is reached. -/
def handle_tp_dt_step (can_id : Nat) (data : List Nat) (timestamp : Nat)
    (s : ParserState) : ParserState × Option (Nat × List Nat × Nat) :=
  let message_id := can_id &&& 0x1FFFFFFF
  match s.multi_frame_messages.findIdx? (fun m => m.message_id_tp_dt == message_id) with
  | none => (s, none)
  | some i =>
    let m := s.multi_frame_messages.getD i emptySlot
    let packet_number := get8 data 0
    if packet_number ≠ (m.received_packets + 1) % U32 then
      (remove_multi_frame_message message_id s, none)
    else
      let offset := sub32 packet_number 1 * 7 % U32
      let m2 := { m with
                    data := memcpy7 m.data offset data
                    received_packets := (m.received_packets + 1) % U32
                    last_seen := timestamp }
      let s2 := { s with multi_frame_messages := s.multi_frame_messages.set i m2 }
      if m2.received_packets = m2.num_packets then (s2, some (message_id, m2.data, m2.total_size))
      else (s2, none)

/-- C `handle_tp_dt_message`: on completion the payload goes to
`process_dm1_message` and then the slot is released. -/
def handle_tp_dt_message (cfg : DtcParseConfig) (can_id : Nat) (data : List Nat)
    (timestamp : Nat) (s : ParserState) : ParserState :=
  match handle_tp_dt_step can_id data timestamp s with
  | (s2, none) => s2
  | (s2, some r) =>
    remove_multi_frame_message r.1 (process_dm1_message cfg r.1 r.2.1 r.2.2 timestamp s2)

/-- C `remove_incomplete_multi_frame_message`: zero every occupied slot whose
last fragment is older than the multi-frame timeout. -/
def remove_incomplete_multi_frame_message (cfg : DtcParseConfig) (timestamp : Nat)
    (s : ParserState) : ParserState :=
  { s with multi_frame_messages := s.multi_frame_messages.map (fun m =>
      if m.message_id ≠ 0 ∧ cfg.timeout_multi_frame < sub32 timestamp m.last_seen
      then emptySlot else m) }

/-- The candidate-expiry test of `remove_inactive_dtcs` (line 78). -/
def candidateExpired (cfg : DtcParseConfig) (timestamp : Nat) (f : DTC_Info) : Bool :=
  decide (cfg.dtc_active_time_window < sub32 timestamp f.first_seen)

/-- The active-expiry test of `remove_inactive_dtcs` (line 90). -/
def activeExpired (cfg : DtcParseConfig) (timestamp : Nat) (f : DTC_Info) : Bool :=
  decide (cfg.debounce_dtc_inactive_time < sub32 timestamp f.last_seen)

/-- The candidate sweep of `remove_inactive_dtcs`: in-place shift removal with
index recheck = keep or drop each entry in order. -/
def dropExpiredLoop (p : DTC_Info → Bool) : List DTC_Info → List DTC_Info
  | [] => []
  | f :: rest => if p f then dropExpiredLoop p rest else f :: dropExpiredLoop p rest

/-- The active sweep of `remove_inactive_dtcs`: same removal loop, additionally
setting the changed flag at each removal. -/
def dropExpiredActivesLoop (p : DTC_Info → Bool) :
    List DTC_Info → Bool → List DTC_Info × Bool
  | [], changed => ([], changed)
  | f :: rest, changed =>
    if p f then dropExpiredActivesLoop p rest true
    else
      let r := dropExpiredActivesLoop p rest changed
      (f :: r.1, r.2)

/-- C `remove_inactive_dtcs`: both sweeps. -/
def remove_inactive_dtcs (cfg : DtcParseConfig) (timestamp : Nat) (s : ParserState) :
    ParserState :=
  let cands := dropExpiredLoop (candidateExpired cfg timestamp) s.candidate_dtcs
  let r := dropExpiredActivesLoop (activeExpired cfg timestamp) s.active_dtcs
    s.changed_dtc_list
  { s with candidate_dtcs := cands, active_dtcs := r.1, changed_dtc_list := r.2 }

/-- C `process_dtc_frame`: under the mutex, classify by CAN id (DM1 single
frame; TP.CM with PGN 0xFECA and BAM control byte; TP.DT) and dispatch; if the
mutex is unavailable the frame is dropped. -/
def process_dtc_frame (cfg : DtcParseConfig) (can_id : Nat) (data : List Nat)
    (timestamp : Nat) (s : ParserState) : ParserState :=
  let t := take_dtc_mutex s
  if t.2 then
    let s1 :=
      if can_id &&& 0x00FFFF00 = 0x00FECA00 then
        process_dm1_message cfg can_id data 8 timestamp t.1
      else if can_id &&& 0x00FF0000 = 0x00EC0000 then
        if ((get8 data 7 <<< 16) ||| (get8 data 6 <<< 8) ||| get8 data 5) = 0xFECA then
          if get8 data 0 = 0x20 then handle_tp_cm_message can_id data timestamp t.1
          else t.1
        else t.1
      else if can_id &&& 0x00FF0000 = 0x00EB0000 then
        handle_tp_dt_message cfg can_id data timestamp t.1
      else t.1
    give_dtc_mutex s1
  else s

/-- C `check_dtcs`: under the mutex, age the tracker lists and the slot table;
if the changed flag is set, deliver the active list to the registered callback
(reported as the `Option` output), clear the flag and return true. -/
def check_dtcs (cfg : DtcParseConfig) (timestamp : Nat) (s : ParserState) :
    ParserState × Bool × Option (List DTC_Info) :=
  let t := take_dtc_mutex s
  if t.2 then
    let s1 := remove_inactive_dtcs cfg timestamp t.1
    let s2 := remove_incomplete_multi_frame_message cfg timestamp s1
    if s2.changed_dtc_list then
      let notif := if s2.callback_registered then some s2.active_dtcs else none
      (give_dtc_mutex { s2 with changed_dtc_list := false }, true, notif)
    else (give_dtc_mutex s2, false, none)
  else (s, false, none)

/-- C `clear_dtcs`: under the mutex, zero the candidate, active and slot tables. -/
def clear_dtcs (s : ParserState) : ParserState :=
  let t := take_dtc_mutex s
  if t.2 then
    let s1 := { t.1 with
                  candidate_dtcs := []
                  active_dtcs := []
                  multi_frame_messages := List.replicate MAX_CONCURRENT_MULTIFRAME emptySlot }
    give_dtc_mutex s1
  else s

/-- `sizeof(DTC_Info_t)`: the packed C struct is 6 + 4 + 4 + 2 bytes. -/
def sizeof_DTC_Info : Nat := 16

/-- C `copy_dtcs`: under the mutex, check the buffer size and copy the active
list (reported as the `Option` output together with `*dtc_count`).  Mirrors the
source exactly: on the buffer-too-small path the function returns `false`
without calling `give_dtc_mutex`. -/
def copy_dtcs (buf_size : Nat) (s : ParserState) :
    ParserState × Bool × Option (List DTC_Info × Nat) :=
  let t := take_dtc_mutex s
  if t.2 then
    let required := t.1.active_dtcs.length * sizeof_DTC_Info % 2 ^ 16
    if required ≤ buf_size % 2 ^ 16 then
      (give_dtc_mutex t.1, true, some (t.1.active_dtcs, t.1.active_dtcs.length % 2 ^ 8))
    else (t.1, false, none)
  else (s, false, none)

/-- External stimuli considered by the sequence claims: an ingested CAN frame,
a maintenance tick, or a reset. -/
inductive Event where
  | frame (can_id : Nat) (data : List Nat) (timestamp : Nat)
  | tick (timestamp : Nat)
  | clearAll
deriving Repr, DecidableEq

/-- One stimulus applied through the public API. -/
def stepEv (cfg : DtcParseConfig) (s : ParserState) : Event → ParserState
  | .frame can_id data timestamp => process_dtc_frame cfg can_id data timestamp s
  | .tick timestamp => (check_dtcs cfg timestamp s).1
  | .clearAll => clear_dtcs s

/-- A whole stimulus sequence applied through the public API. -/
def execEvents (cfg : DtcParseConfig) (events : List Event) (s : ParserState) :
    ParserState :=
  events.foldl (stepEv cfg) s

/-- Identity of a tracked DTC: `(src, spn, fmi)`. -/
def dtcKey (f : DTC_Info) : Nat × Nat × Nat := (f.dtc.src, f.dtc.spn, f.dtc.fmi)

/-- No two records of the union of the candidate and active lists share an
identity. -/
def keysUnique (s : ParserState) : Prop :=
  ((s.candidate_dtcs ++ s.active_dtcs).map dtcKey).Nodup

/-- The record offsets visited by the source's DM1 loop bound
`for (i = 2; i < length - 2; i += 4)`, starting from `i`. -/
def codeOffsetsFrom (length i : Nat) : List Nat :=
  if h : i < length - 2 then i :: codeOffsetsFrom length (i + 4) else []
termination_by length - 2 - i
decreasing_by omega

/-- The record offsets visited under the specification's bound `i + 4 ≤ length`,
starting from `i`. -/
def specOffsetsFrom (length i : Nat) : List Nat :=
  if h : i + 4 ≤ length then i :: specOffsetsFrom length (i + 4) else []
termination_by length - i
decreasing_by omega

/-- Offsets decoded by the source for a DM1 payload of the given length. -/
def dm1RecordOffsets (length : Nat) : List Nat := codeOffsetsFrom length 2

/-- Offsets the specification's bound would decode. -/
def dm1SpecOffsets (length : Nat) : List Nat := specOffsetsFrom length 2

/-- Whether one stimulus produces a change event in the sense of the spec: a
promotion entered the active list (the frame made it longer) or an active DTC
aged out during the tick's sweep (the sweep made it shorter). Attribute-only
refreshes alter neither length. Resets are not change events. -/
def stepChangeEvent (cfg : DtcParseConfig) (s : ParserState) : Event → Bool
  | .frame can_id data timestamp =>
    decide (s.active_dtcs.length ≠ (process_dtc_frame cfg can_id data timestamp s).active_dtcs.length)
  | .tick timestamp =>
    decide (s.active_dtcs.length ≠ (remove_inactive_dtcs cfg timestamp s).active_dtcs.length)
  | .clearAll => false

/-- Modelled from the spec: fold of the spec's change-flag discipline alongside
the execution — the flag is an OR of change events; a tick reports true exactly
when a change event happened since the last tick that reported true, and the
flag is cleared exactly on delivery. -/
def sinceTrueAux (cfg : DtcParseConfig) : List Event → ParserState → Bool → ParserState × Bool
  | [], s, b => (s, b)
  | e :: rest, s, b =>
    let occurred := stepChangeEvent cfg s e
    let b2 :=
      match e with
      | .tick _ => if b || occurred then false else b || occurred
      | _ => b || occurred
    sinceTrueAux cfg rest (stepEv cfg s e) b2

/-- Modelled from the spec: whether a change event (promotion into the active
list, or active aging out) occurred since the last tick that returned true. -/
def specChangedSinceLastTrueTick (cfg : DtcParseConfig) (cb : Bool) (events : List Event) : Bool :=
  (sinceTrueAux cfg events (initState cb) false).2

/-- Bytes 1..7 of a TP.DT frame: the seven payload bytes of one fragment. -/
def frag7 (frame : List Nat) : List Nat :=
  (List.range 7).map (fun j => get8 frame (1 + j))

/-- Concatenation of the payload bytes of a fragment sequence. -/
def flat7 (frames : List (List Nat)) : List Nat :=
  (frames.map frag7).flatten

/-- A BAM TP.CM frame announcing `total_size` and `num_packets` for PGN 0xFECA. -/
def bamData (total_size num_packets : Nat) : List Nat :=
  [0x20, total_size % 256, total_size / 256, num_packets, 0xFF, 0xCA, 0xFE, 0x00]

/-- Deliver a sequence of TP.DT frames with a common CAN id and timestamp. -/
def runFragments (cfg : DtcParseConfig) (can_id : Nat) (timestamp : Nat)
    (frames : List (List Nat)) (s : ParserState) : ParserState :=
  frames.foldl (fun s2 fr => handle_tp_dt_message cfg can_id fr timestamp s2) s

/-- The slot data buffer after the first `j` fragments have been copied in: the
concatenated fragment payloads followed by the remaining zero fill. -/
def partialBuf (frames : List (List Nat)) (j : Nat) : List Nat :=
  flat7 (frames.take j) ++ List.replicate (MAX_MULTIFRAME_DATA_SIZE - 7 * j) 0

/-- Replace the slot table of a state, keeping every other component. -/
def withSlots (s : ParserState) (slots : List MultiFrameMessage) : ParserState :=
  { s with multi_frame_messages := slots }

/-- The reassembly slot for announcement id `mid` (size `S`, `K` packets) after
the first `j` in-order fragments of `frames` have been accepted. -/
def slotAfter (mid S K ts : Nat) (frames : List (List Nat)) (j : Nat) : MultiFrameMessage :=
  { message_id := mid
    message_id_tp_dt := (mid &&& 0xFF00FFFF) ||| 0x00EB0000
    total_size := S
    num_packets := K
    received_packets := j
    first_seen := ts
    last_seen := ts
    data := partialBuf frames j }

/-- A sample tracked DTC used by concrete counterexamples and witnesses. -/
def sampleInfo : DTC_Info :=
  { dtc := mkDTC 3 3 3 3 3 1 5 0 2, first_seen := 0, last_seen := 0, read_count := 1 }

/-- A family of pairwise-distinct active records used to fill the active list. -/
def dummyActive (n : Nat) : DTC_Info :=
  { dtc := mkDTC n 0 0 0 0 n 1 0 0, first_seen := 0, last_seen := 0, read_count := 1 }

/-- A full active list (at capacity). -/
def fullActs : List DTC_Info := (List.range MAX_ACTIVE_DTCS).map dummyActive

/-- A candidate that meets the promotion criterion for `active_read_count = 1`. -/
def promotableCand : DTC_Info :=
  { dtc := mkDTC 3 0 0 0 0 1 5 0 2, first_seen := 0, last_seen := 0, read_count := 5 }

/-- One iteration of the DM1 record loop: decode the record at offset `i` and
feed it to `update_dtc_status` (the body of `dm1Loop`). -/
def dm1Step (cfg : DtcParseConfig) (src mil rsl awl pl : Nat) (data : List Nat)
    (timestamp : Nat) (s : ParserState) (i : Nat) : ParserState :=
  update_dtc_status cfg timestamp src (dm1_spn data i) (get8 data (i + 2) &&& 0x1F)
    ((get8 data (i + 3) >>> 7) &&& 0x01) (get8 data (i + 3) &&& 0x7F) mil rsl awl pl s

/-- The tracker-visible state components are untouched (used for the handlers
that only operate on the slot table). -/
def tablesUnchanged (s s2 : ParserState) : Prop :=
  s2.candidate_dtcs = s.candidate_dtcs ∧ s2.active_dtcs = s.active_dtcs ∧
  s2.changed_dtc_list = s.changed_dtc_list

/-- Across a tracker operation the active list only grows, the changed flag is
set exactly when it did grow (on top of its previous value), and the callback
registration is untouched. -/
def monoFlag (s s2 : ParserState) : Prop :=
  s.active_dtcs.length ≤ s2.active_dtcs.length ∧
  s2.changed_dtc_list =
    (s.changed_dtc_list || decide (s.active_dtcs.length ≠ s2.active_dtcs.length)) ∧
  s2.callback_registered = s.callback_registered

/-- A state holding one fresh in-flight reassembly slot (BAM id 0x1CECFF00,
size 12, two packets), used by concrete witnesses. -/
def oooState : ParserState :=
  { initState true with multi_frame_messages :=
      [initSlot 0x1CECFF00 12 2 0, emptySlot, emptySlot, emptySlot] }

/- ------------------------------------------------------------------ -/
/- Characterisations of the removal and promotion sweeps.             -/
/- ------------------------------------------------------------------ -/

theorem dropExpiredLoop_eq_filter (p : DTC_Info → Bool) (l : List DTC_Info) :
    dropExpiredLoop p l = l.filter (fun f => !p f) := by
  induction l with
  | nil => rfl
  | cons f rest ih =>
    by_cases h : p f <;> simp [dropExpiredLoop, h, ih]

theorem dropExpiredActivesLoop_spec (p : DTC_Info → Bool) (l : List DTC_Info)
    (changed : Bool) :
    dropExpiredActivesLoop p l changed = (l.filter (fun f => !p f), changed || l.any p) := by
  induction l generalizing changed with
  | nil => simp [dropExpiredActivesLoop]
  | cons f rest ih =>
    by_cases h : p f <;> simp [dropExpiredActivesLoop, h, ih]

theorem promoteLoop_spec (cfg : DtcParseConfig) (timestamp : Nat)
    (cands acts : List DTC_Info) (changed : Bool) :
    promoteLoop cfg timestamp cands acts changed =
      (cands.filter (fun f => !promoteCrit cfg timestamp f),
       acts ++ (cands.filter (promoteCrit cfg timestamp)).take (MAX_ACTIVE_DTCS - acts.length),
       changed || (!(cands.filter (promoteCrit cfg timestamp)).isEmpty &&
         decide (acts.length < MAX_ACTIVE_DTCS))) := by
  induction cands generalizing acts changed with
  | nil => simp [promoteLoop]
  | cons f rest ih =>
    by_cases h : promoteCrit cfg timestamp f
    · by_cases hlen : acts.length < MAX_ACTIVE_DTCS
      · have htake : MAX_ACTIVE_DTCS - acts.length = (MAX_ACTIVE_DTCS - (acts.length + 1)) + 1 := by
          omega
        simp [promoteLoop, h, add_active_dtc, hlen, ih, List.filter_cons, htake,
          List.take_succ_cons]
      · have htake : MAX_ACTIVE_DTCS - acts.length = 0 := by omega
        simp [promoteLoop, h, add_active_dtc, hlen, ih, List.filter_cons, htake]
    · simp [promoteLoop, h, ih, List.filter_cons]

/- ------------------------------------------------------------------ -/
/- C1, C2, C3, C5, C6, C10                                            -/
/- ------------------------------------------------------------------ -/

/-- C1 (code bug): with the gate free, one active DTC and a zero-sized buffer,
`copy_dtcs` returns false but leaves the mutex taken — the gate is not free
again, contradicting the claim that every false return leaves the gate free.
The three tables are indeed left unchanged. -/
theorem copy_dtcs_small_buffer_leaves_mutex_taken :
    (copy_dtcs 0 { initState true with active_dtcs := [sampleInfo] }).2.1 = false ∧
    (copy_dtcs 0 { initState true with active_dtcs := [sampleInfo] }).1.dtc_mutex_taken = true ∧
    (copy_dtcs 0 { initState true with active_dtcs := [sampleInfo] }).1.candidate_dtcs = [] ∧
    (copy_dtcs 0 { initState true with active_dtcs := [sampleInfo] }).1.active_dtcs = [sampleInfo] ∧
    (copy_dtcs 0 { initState true with active_dtcs := [sampleInfo] }).1.multi_frame_messages =
      List.replicate MAX_CONCURRENT_MULTIFRAME emptySlot := by
  refine ⟨rfl, rfl, rfl, rfl, rfl⟩

/-- C2 (code bug): a BAM declaring `total_size = 7` but `num_packets = 40` is
accepted and creates a slot violating `num_packets ≤ ceil(total_size / 7)`;
the copy offset of its last declared packet, `(40-1)*7 + 7`, lies beyond the
fixed-size data buffer. -/
theorem bam_slot_violates_packet_bound :
    ((handle_tp_cm_message 0x1CECFF00 (bamData 7 40) 0
        (initState true)).multi_frame_messages.getD 0 emptySlot).total_size = 7 ∧
    ((handle_tp_cm_message 0x1CECFF00 (bamData 7 40) 0
        (initState true)).multi_frame_messages.getD 0 emptySlot).num_packets = 40 ∧
    ¬ (((handle_tp_cm_message 0x1CECFF00 (bamData 7 40) 0
        (initState true)).multi_frame_messages.getD 0 emptySlot).num_packets ≤
       (((handle_tp_cm_message 0x1CECFF00 (bamData 7 40) 0
        (initState true)).multi_frame_messages.getD 0 emptySlot).total_size + 6) / 7) ∧
    MAX_MULTIFRAME_DATA_SIZE < (40 - 1) * 7 + 7 := by
  decide

/-- C3 counterexample: at payload length 9 the source bound `i < length - 2`
decodes offsets 2 and 6, while `i + 4 ≤ length` decodes only offset 2; the
extra record at offset 6 extends one byte past the buffer end. -/
theorem dm1_bound_differs_at_length_9 :
    dm1RecordOffsets 9 = [2, 6] ∧ dm1SpecOffsets 9 = [2] ∧
    dm1RecordOffsets 9 ≠ dm1SpecOffsets 9 ∧ ¬ (6 + 4 ≤ 9) := by
  refine ⟨?_, ?_, ?_, by omega⟩
  · simp [dm1RecordOffsets, codeOffsetsFrom]
  · simp [dm1SpecOffsets, specOffsetsFrom]
  · simp [dm1RecordOffsets, dm1SpecOffsets, codeOffsetsFrom, specOffsetsFrom]

theorem offsetsFrom_equiv_aux (L : Nat) (h4 : L % 4 ≠ 1) :
    ∀ n i, L - i ≤ n → i % 4 = 2 →
      codeOffsetsFrom L i = specOffsetsFrom L i ∧
      ∀ j ∈ codeOffsetsFrom L i, j + 4 ≤ L := by
  intro n
  induction n with
  | zero =>
    intro i hle hi
    have h1 : ¬ i < L - 2 := by omega
    have h2 : ¬ i + 4 ≤ L := by omega
    rw [codeOffsetsFrom, specOffsetsFrom]
    simp [h1, h2]
  | succ n ih =>
    intro i hle hi
    by_cases hA : i + 4 ≤ L
    · have hB : i < L - 2 := by omega
      have hrec := ih (i + 4) (by omega) (by omega)
      constructor
      · rw [codeOffsetsFrom, specOffsetsFrom]
        simp [hA, hB, hrec.1]
      · intro j hj
        rw [codeOffsetsFrom] at hj
        simp [hB] at hj
        rcases hj with rfl | hj
        · omega
        · exact hrec.2 j hj
    · by_cases hB : i < L - 2
      · exfalso
        omega
      · rw [codeOffsetsFrom, specOffsetsFrom]
        simp [hA, hB]

/-- C3 (amended): the source bound `i < length - 2` and the specification bound
`i + 4 ≤ length` visit exactly the same record offsets for every DM1 length `L ≥ 6`
with `L % 4 ≠ 1`, and then every decoded record lies inside the buffer; when
`L % 4 = 1` the source decodes one extra trailing record past the buffer end
(see the counterexample at length 9). -/
theorem dm1_bounds_equivalent_unless_mod4_one (L : Nat) (h6 : 6 ≤ L) (h4 : L % 4 ≠ 1) :
    dm1RecordOffsets L = dm1SpecOffsets L ∧ ∀ i ∈ dm1RecordOffsets L, i + 4 ≤ L := by
  have := offsetsFrom_equiv_aux L h4 L 2 (by omega) (by omega)
  exact ⟨this.1, this.2⟩

/-- Witness for C3: the amended equivalence instantiated at length 12. -/
theorem dm1_bounds_equivalent_witness :
    6 ≤ 12 ∧ 12 % 4 ≠ 1 ∧
    (dm1RecordOffsets 12 = dm1SpecOffsets 12 ∧ ∀ i ∈ dm1RecordOffsets 12, i + 4 ≤ 12) :=
  ⟨by omega, by omega, dm1_bounds_equivalent_unless_mod4_one 12 (by omega) (by omega)⟩

/-- C5 counterexample: with `active_read_count = 1`, a candidate meeting the
promotion criterion while the active list is full is removed from the candidate
list (the promotion's drop case) but the changed flag stays false, contradicting
"every promotion sets the changed flag". -/
theorem promotion_full_drop_leaves_changed_false :
    promoteCrit ⟨1, 10, 20, 5⟩ 0 promotableCand = true ∧
    fullActs.length = MAX_ACTIVE_DTCS ∧
    (promoteLoop ⟨1, 10, 20, 5⟩ 0 [promotableCand] fullActs false).1 = [] ∧
    (promoteLoop ⟨1, 10, 20, 5⟩ 0 [promotableCand] fullActs false).2.1 = fullActs ∧
    (promoteLoop ⟨1, 10, 20, 5⟩ 0 [promotableCand] fullActs false).2.2 = false := by
  decide

/-- C5 (amended): after the insert/refresh step of `update_dtc_status`, the
promotion sweep promotes exactly the candidates with
`sub32 ts first_seen ≤ active_time_window` and `read_count ≥ active_read_count`:
they are removed from the candidate list in order; as many as fit are appended
to the active list; the rest are dropped without re-queueing; and the changed
flag is set iff at least one promoted candidate was actually appended (a
promotion dropped because the active list is full leaves the flag unchanged). -/
theorem promotion_pass_characterisation (cfg : DtcParseConfig) (timestamp : Nat)
    (cands acts : List DTC_Info) (changed : Bool) :
    promoteLoop cfg timestamp cands acts changed =
      (cands.filter (fun f => !promoteCrit cfg timestamp f),
       acts ++ (cands.filter (promoteCrit cfg timestamp)).take (MAX_ACTIVE_DTCS - acts.length),
       changed || (!(cands.filter (promoteCrit cfg timestamp)).isEmpty &&
         decide (acts.length < MAX_ACTIVE_DTCS))) :=
  promoteLoop_spec cfg timestamp cands acts changed

theorem remove_inactive_sweep_eq (cfg : DtcParseConfig) (timestamp : Nat) (s : ParserState) :
    remove_inactive_dtcs cfg timestamp s =
      { s with
          candidate_dtcs := s.candidate_dtcs.filter (fun f => !candidateExpired cfg timestamp f)
          active_dtcs := s.active_dtcs.filter (fun f => !activeExpired cfg timestamp f)
          changed_dtc_list := s.changed_dtc_list || s.active_dtcs.any (activeExpired cfg timestamp) } := by
  simp [remove_inactive_dtcs, dropExpiredLoop_eq_filter, dropExpiredActivesLoop_spec]

/-- C6: one aging sweep removes exactly the candidates whose window expired and
exactly the actives whose inactivity timeout expired, sets the changed flag iff
at least one active was removed, and keeps all other records unchanged in their
original relative order (filter semantics: no neighbour is skipped). -/
theorem remove_inactive_dtcs_spec (cfg : DtcParseConfig) (timestamp : Nat) (s : ParserState) :
    remove_inactive_dtcs cfg timestamp s =
      { s with
          candidate_dtcs := s.candidate_dtcs.filter (fun f => !candidateExpired cfg timestamp f)
          active_dtcs := s.active_dtcs.filter (fun f => !activeExpired cfg timestamp f)
          changed_dtc_list := s.changed_dtc_list || s.active_dtcs.any (activeExpired cfg timestamp) } :=
  remove_inactive_sweep_eq cfg timestamp s

/-- C10: while the gate is already held, `process_dtc_frame` drops the frame and
changes nothing (the gate stays held), and `check_dtcs` returns false, delivers
nothing and changes nothing. -/
theorem mutex_held_frame_tick_noop (cfg : DtcParseConfig) (can_id : Nat) (data : List Nat)
    (timestamp : Nat) (s : ParserState) (h : s.dtc_mutex_taken = true) :
    process_dtc_frame cfg can_id data timestamp s = s ∧
    check_dtcs cfg timestamp s = (s, false, none) := by
  constructor
  · simp [process_dtc_frame, take_dtc_mutex, h]
  · simp [check_dtcs, take_dtc_mutex, h]

/-- Witness for C10: the contended no-op at a concrete held-gate state. -/
theorem mutex_held_frame_tick_noop_witness :
    ({ initState true with dtc_mutex_taken := true } : ParserState).dtc_mutex_taken = true ∧
    (process_dtc_frame dtcParseCfg 0x18FECA03 [0xFF, 0, 1, 0, 5, 0, 2, 0] 7
        { initState true with dtc_mutex_taken := true } =
      { initState true with dtc_mutex_taken := true } ∧
     check_dtcs dtcParseCfg 7 { initState true with dtc_mutex_taken := true } =
      ({ initState true with dtc_mutex_taken := true }, false, none)) :=
  ⟨rfl, mutex_held_frame_tick_noop dtcParseCfg 0x18FECA03 [0xFF, 0, 1, 0, 5, 0, 2, 0] 7 _ rfl⟩

/-- C8: a TP.DT fragment whose packet number differs from `received_packets + 1`
for its matching in-flight slot releases (zeroes) exactly that slot, dispatches
no payload to the DM1 parser, and the handler changes nothing else. -/
theorem tp_dt_out_of_order_releases_slot (cfg : DtcParseConfig) (can_id : Nat)
    (data : List Nat) (timestamp : Nat) (s : ParserState) (i : Nat)
    (hfind : s.multi_frame_messages.findIdx?
      (fun m => m.message_id_tp_dt == (can_id &&& 0x1FFFFFFF)) = some i)
    (horder : get8 data 0 ≠
      ((s.multi_frame_messages.getD i emptySlot).received_packets + 1) % U32) :
    handle_tp_dt_step can_id data timestamp s =
      ({ s with multi_frame_messages := s.multi_frame_messages.set i emptySlot }, none) ∧
    handle_tp_dt_message cfg can_id data timestamp s =
      { s with multi_frame_messages := s.multi_frame_messages.set i emptySlot } := by
  have hstep : handle_tp_dt_step can_id data timestamp s =
      ({ s with multi_frame_messages := s.multi_frame_messages.set i emptySlot }, none) := by
    simp only [handle_tp_dt_step, hfind]
    rw [if_pos horder]
    simp only [remove_multi_frame_message, hfind]
  refine ⟨hstep, ?_⟩
  unfold handle_tp_dt_message
  rw [hstep]

/-- Witness for C8: packet number 2 arrives first for a fresh two-packet slot;
the slot is zeroed and nothing is dispatched. -/
theorem tp_dt_out_of_order_witness :
    (oooState.multi_frame_messages.findIdx?
      (fun m => m.message_id_tp_dt == (0x1CEBFF00 &&& 0x1FFFFFFF)) = some 0 ∧
     get8 [2, 0, 0, 0, 0, 0, 0, 0] 0 ≠
      ((oooState.multi_frame_messages.getD 0 emptySlot).received_packets + 1) % U32) ∧
    handle_tp_dt_step 0x1CEBFF00 [2, 0, 0, 0, 0, 0, 0, 0] 5 oooState =
      ({ oooState with multi_frame_messages := oooState.multi_frame_messages.set 0 emptySlot },
        none) ∧
    handle_tp_dt_message dtcParseCfg 0x1CEBFF00 [2, 0, 0, 0, 0, 0, 0, 0] 5 oooState =
      { oooState with multi_frame_messages := oooState.multi_frame_messages.set 0 emptySlot } := by
  refine ⟨⟨by decide, by decide⟩, ?_, ?_⟩
  · exact (tp_dt_out_of_order_releases_slot dtcParseCfg 0x1CEBFF00 [2, 0, 0, 0, 0, 0, 0, 0]
      5 oooState 0 (by decide) (by decide)).1
  · exact (tp_dt_out_of_order_releases_slot dtcParseCfg 0x1CEBFF00 [2, 0, 0, 0, 0, 0, 0, 0]
      5 oooState 0 (by decide) (by decide)).2

/- ------------------------------------------------------------------ -/
/- Identity uniqueness (C4): preservation lemmas.                     -/
/- ------------------------------------------------------------------ -/

theorem get8_lt (d : List Nat) (i : Nat) : get8 d i < 256 :=
  Nat.mod_lt _ (by norm_num)

theorem dm1_spn_lt (data : List Nat) (i : Nat) : dm1_spn data i < 2 ^ 19 := by
  unfold dm1_spn
  have h1 : ((get8 data (i + 2) >>> 5) &&& 0x7) <<< 16 < 2 ^ 19 := by
    have hle : (get8 data (i + 2) >>> 5) &&& 0x7 ≤ 0x7 := Nat.and_le_right
    rw [Nat.shiftLeft_eq]
    omega
  have h2 : (get8 data (i + 1) <<< 8) &&& 0xFF00 < 2 ^ 19 := by
    have hle : (get8 data (i + 1) <<< 8) &&& 0xFF00 ≤ 0xFF00 := Nat.and_le_right
    omega
  have h3 : get8 data i < 2 ^ 19 := by
    have := get8_lt data i
    omega
  exact Nat.or_lt_two_pow (Nat.or_lt_two_pow h1 h2) h3

theorem dtcKey_refresh (timestamp oc mil rsl awl pl : Nat) (f : DTC_Info) :
    dtcKey (refresh_dtc timestamp oc mil rsl awl pl f) = dtcKey f := rfl

theorem update_first_match_map_key (p : DTC_Info → Bool) (g : DTC_Info → DTC_Info)
    (hg : ∀ f, dtcKey (g f) = dtcKey f) :
    ∀ l : List DTC_Info, (update_first_match p g l).map dtcKey = l.map dtcKey := by
  intro l
  induction l with
  | nil => rfl
  | cons f rest ih =>
    by_cases h : p f <;> simp [update_first_match, h, ih, hg]

theorem update_first_match_length (p : DTC_Info → Bool) (g : DTC_Info → DTC_Info) :
    ∀ l : List DTC_Info, (update_first_match p g l).length = l.length := by
  intro l
  induction l with
  | nil => rfl
  | cons f rest ih =>
    by_cases h : p f <;> simp [update_first_match, h, ih]

theorem subperm_map {α β : Type} (f : α → β) {l1 l2 : List α} (h : l1.Subperm l2) :
    (l1.map f).Subperm (l2.map f) := by
  obtain ⟨l, hp, hs⟩ := h
  exact ⟨l.map f, hp.map f, hs.map f⟩

theorem subperm_nodup {α : Type} {l1 l2 : List α} (h : l1.Subperm l2) (h2 : l2.Nodup) :
    l1.Nodup := by
  obtain ⟨l, hp, hs⟩ := h
  exact hp.nodup (hs.nodup h2)

theorem promoteLoop_subperm (cfg : DtcParseConfig) (timestamp : Nat)
    (cands acts : List DTC_Info) (changed : Bool) :
    ((promoteLoop cfg timestamp cands acts changed).1 ++
      (promoteLoop cfg timestamp cands acts changed).2.1).Subperm (cands ++ acts) := by
  rw [promoteLoop_spec]
  have hQP : (cands.filter (fun f => !promoteCrit cfg timestamp f) ++
      cands.filter (promoteCrit cfg timestamp)).Perm cands := by
    have := List.filter_append_perm (promoteCrit cfg timestamp) cands
    exact (List.perm_append_comm).trans this
  have hsub : (cands.filter (fun f => !promoteCrit cfg timestamp f) ++
      (acts ++ (cands.filter (promoteCrit cfg timestamp)).take
        (MAX_ACTIVE_DTCS - acts.length))).Sublist
      (cands.filter (fun f => !promoteCrit cfg timestamp f) ++
        (acts ++ cands.filter (promoteCrit cfg timestamp))) := by
    apply List.Sublist.append_left
    apply List.Sublist.append_left
    exact List.take_sublist _ _
  have hperm : (cands.filter (fun f => !promoteCrit cfg timestamp f) ++
      (acts ++ cands.filter (promoteCrit cfg timestamp))).Perm (cands ++ acts) := by
    have p1 : (cands.filter (fun f => !promoteCrit cfg timestamp f) ++
        (acts ++ cands.filter (promoteCrit cfg timestamp))).Perm
        (cands.filter (fun f => !promoteCrit cfg timestamp f) ++
          (cands.filter (promoteCrit cfg timestamp) ++ acts)) :=
      List.Perm.append_left _ List.perm_append_comm
    have p3 : ((cands.filter (fun f => !promoteCrit cfg timestamp f) ++
        cands.filter (promoteCrit cfg timestamp)) ++ acts).Perm (cands ++ acts) :=
      List.Perm.append_right _ hQP
    rw [List.append_assoc] at p3
    exact p1.trans p3
  dsimp only
  exact hsub.subperm.trans hperm.subperm

theorem find_dtc_none_key (l : List DTC_Info) (src spn fmi : Nat)
    (h : find_dtc l src spn fmi = none) :
    ∀ f ∈ l, dtcKey f ≠ (src, spn, fmi) := by
  intro f hf heq
  rw [find_dtc, List.find?_eq_none] at h
  apply h f hf
  simp only [dtcKey, Prod.mk.injEq] at heq
  simp [keyMatches, heq.1, heq.2.1, heq.2.2]

theorem mkDTC_key_fields (src mil rsl awl pl spn fmi cm oc : Nat)
    (hsrc : src < 2 ^ 8) (hspn : spn < 2 ^ 19) (hfmi : fmi < 2 ^ 5) :
    (mkDTC src mil rsl awl pl spn fmi cm oc).src = src ∧
    (mkDTC src mil rsl awl pl spn fmi cm oc).spn = spn ∧
    (mkDTC src mil rsl awl pl spn fmi cm oc).fmi = fmi := by
  refine ⟨?_, ?_, ?_⟩
  · show src % 2 ^ 8 = src
    exact Nat.mod_eq_of_lt hsrc
  · show spn % 2 ^ 19 = spn
    exact Nat.mod_eq_of_lt hspn
  · show fmi % 2 ^ 5 = fmi
    exact Nat.mod_eq_of_lt hfmi

theorem update_dtc_status_keysUnique (cfg : DtcParseConfig)
    (timestamp src spn fmi cm oc mil rsl awl pl : Nat) (s : ParserState)
    (hsrc : src < 2 ^ 8) (hspn : spn < 2 ^ 19) (hfmi : fmi < 2 ^ 5)
    (h : keysUnique s) :
    keysUnique (update_dtc_status cfg timestamp src spn fmi cm oc mil rsl awl pl s) := by
  have hmain : ∀ (cands acts : List DTC_Info) (changed : Bool),
      ((cands ++ acts).map dtcKey).Nodup →
      (((promoteLoop cfg timestamp cands acts changed).1 ++
        (promoteLoop cfg timestamp cands acts changed).2.1).map dtcKey).Nodup := by
    intro cands acts changed hnd
    exact subperm_nodup (subperm_map dtcKey (promoteLoop_subperm cfg timestamp cands acts changed)) hnd
  unfold update_dtc_status
  by_cases hA : (find_dtc s.active_dtcs src spn fmi).isSome = true
  · simp only [hA, if_true, keysUnique]
    apply hmain
    have hmap := update_first_match_map_key (keyMatches src spn fmi)
      (refresh_dtc timestamp oc mil rsl awl pl) (fun f => rfl) s.active_dtcs
    simp only [List.map_append, hmap]
    simpa [keysUnique, List.map_append] using h
  · by_cases hC : (find_dtc s.candidate_dtcs src spn fmi).isSome = true
    · simp only [hA, hC, if_true, if_false, keysUnique, Bool.false_eq_true]
      apply hmain
      have hmap := update_first_match_map_key (keyMatches src spn fmi)
        (fun f =>
          { refresh_dtc timestamp oc mil rsl awl pl f with
              read_count := (f.read_count + 1) % 2 ^ 16 }) (fun f => rfl) s.candidate_dtcs
      simp only [List.map_append, hmap]
      simpa [keysUnique, List.map_append] using h
    · simp only [hA, hC, if_false, keysUnique, Bool.false_eq_true]
      apply hmain
      unfold add_candidate_dtc
      by_cases hfull : s.candidate_dtcs.length < MAX_CANDIDATE_DTCS
      · simp only [hfull, if_true]
        have hnA := find_dtc_none_key s.active_dtcs src spn fmi
          (Option.not_isSome_iff_eq_none.mp hA)
        have hnC := find_dtc_none_key s.candidate_dtcs src spn fmi
          (Option.not_isSome_iff_eq_none.mp hC)
        have hkey : dtcKey
            { dtc := mkDTC src mil rsl awl pl spn fmi cm oc
              first_seen := timestamp
              last_seen := timestamp
              read_count := 1 } = (src, spn, fmi) := by
          obtain ⟨k1, k2, k3⟩ := mkDTC_key_fields src mil rsl awl pl spn fmi cm oc hsrc hspn hfmi
          simp [dtcKey, k1, k2, k3]
        rw [List.append_assoc, List.singleton_append, List.map_append, List.map_cons,
          List.nodup_middle, List.nodup_cons]
        constructor
        · rw [hkey]
          intro hmem
          rw [← List.map_append] at hmem
          obtain ⟨f, hf, hfk⟩ := List.mem_map.mp hmem
          rcases List.mem_append.mp hf with hf | hf
          · exact hnC f hf hfk
          · exact hnA f hf hfk
        · simpa [keysUnique] using h
      · simp only [hfull, if_false]
        exact h

theorem dm1Loop_eq_foldl (cfg : DtcParseConfig) (src mil rsl awl pl : Nat) (data : List Nat)
    (length timestamp : Nat) :
    ∀ n i s, length - 2 - i ≤ n →
      dm1Loop cfg src mil rsl awl pl data length timestamp i s =
        (codeOffsetsFrom length i).foldl (dm1Step cfg src mil rsl awl pl data timestamp) s := by
  intro n
  induction n with
  | zero =>
    intro i s hle
    have h : ¬ i < length - 2 := by omega
    rw [dm1Loop, codeOffsetsFrom]
    simp [h]
  | succ n ih =>
    intro i s hle
    rw [dm1Loop, codeOffsetsFrom]
    by_cases h : i < length - 2
    · simp only [h, dif_pos, List.foldl_cons]
      exact ih (i + 4) _ (by omega)
    · simp [h]

theorem foldl_dm1Step_keysUnique (cfg : DtcParseConfig) (src mil rsl awl pl : Nat)
    (data : List Nat) (timestamp : Nat) (hsrc : src < 2 ^ 8) :
    ∀ (offs : List Nat) (s : ParserState), keysUnique s →
      keysUnique (offs.foldl (dm1Step cfg src mil rsl awl pl data timestamp) s) := by
  intro offs
  induction offs with
  | nil =>
    intro s h
    exact h
  | cons i rest ih =>
    intro s h
    simp only [List.foldl_cons]
    apply ih
    apply update_dtc_status_keysUnique cfg timestamp src _ _ _ _ _ _ _ _ s hsrc
      (dm1_spn_lt data i) ?_ h
    have hfmi : get8 data (i + 2) &&& 0x1F ≤ 0x1F := Nat.and_le_right
    omega

theorem process_dm1_keysUnique (cfg : DtcParseConfig) (can_id : Nat) (data : List Nat)
    (length timestamp : Nat) (s : ParserState) (h : keysUnique s) :
    keysUnique (process_dm1_message cfg can_id data length timestamp s) := by
  unfold process_dm1_message
  by_cases h6 : length < 6
  · simpa [h6] using h
  · by_cases hz : dm1_spn data 2 = 0
    · simpa [h6, hz] using h
    · simp only [h6, hz, if_false]
      rw [dm1Loop_eq_foldl cfg _ _ _ _ _ data length timestamp (length - 2 - 2) 2 s (by omega)]
      apply foldl_dm1Step_keysUnique cfg _ _ _ _ _ data timestamp ?_ _ s h
      have hand : can_id &&& 0xFF ≤ 0xFF := Nat.and_le_right
      omega

theorem tablesUnchanged_of_slots {s s2 : ParserState}
    (h : ∃ slots, s2 = { s with multi_frame_messages := slots }) :
    tablesUnchanged s s2 ∧ s2.dtc_mutex_taken = s.dtc_mutex_taken ∧
    s2.callback_registered = s.callback_registered := by
  obtain ⟨slots, rfl⟩ := h
  simp [tablesUnchanged]

theorem handle_tp_cm_slots_only (can_id : Nat) (data : List Nat) (timestamp : Nat)
    (s : ParserState) :
    ∃ slots, handle_tp_cm_message can_id data timestamp s =
      { s with multi_frame_messages := slots } := by
  unfold handle_tp_cm_message
  dsimp only
  split
  · split
    · exact ⟨s.multi_frame_messages, rfl⟩
    · split
      · exact ⟨_, rfl⟩
      · exact ⟨s.multi_frame_messages, rfl⟩
  · exact ⟨s.multi_frame_messages, rfl⟩

theorem remove_multi_slots_only (message_id_tp_dt : Nat) (s : ParserState) :
    ∃ slots, remove_multi_frame_message message_id_tp_dt s =
      { s with multi_frame_messages := slots } := by
  unfold remove_multi_frame_message
  split
  · exact ⟨_, rfl⟩
  · exact ⟨s.multi_frame_messages, rfl⟩

theorem handle_tp_dt_step_slots_only (can_id : Nat) (data : List Nat) (timestamp : Nat)
    (s : ParserState) :
    ∃ slots, (handle_tp_dt_step can_id data timestamp s).1 =
      { s with multi_frame_messages := slots } := by
  unfold handle_tp_dt_step
  dsimp only
  split
  · exact ⟨s.multi_frame_messages, rfl⟩
  · split
    · obtain ⟨slots, hs⟩ := remove_multi_slots_only (can_id &&& 0x1FFFFFFF) s
      exact ⟨slots, by simpa using hs⟩
    · split
      · exact ⟨_, rfl⟩
      · exact ⟨_, rfl⟩

theorem remove_incomplete_slots_only (cfg : DtcParseConfig) (timestamp : Nat)
    (s : ParserState) :
    ∃ slots, remove_incomplete_multi_frame_message cfg timestamp s =
      { s with multi_frame_messages := slots } :=
  ⟨_, rfl⟩

theorem keysUnique_of_tablesUnchanged {s s2 : ParserState} (h : tablesUnchanged s s2)
    (hk : keysUnique s) : keysUnique s2 := by
  unfold keysUnique at *
  rw [h.1, h.2.1]
  exact hk

theorem handle_tp_dt_keysUnique (cfg : DtcParseConfig) (can_id : Nat) (data : List Nat)
    (timestamp : Nat) (s : ParserState) (h : keysUnique s) :
    keysUnique (handle_tp_dt_message cfg can_id data timestamp s) := by
  unfold handle_tp_dt_message
  have htab := (tablesUnchanged_of_slots (handle_tp_dt_step_slots_only can_id data timestamp s)).1
  cases hstep : handle_tp_dt_step can_id data timestamp s with
  | mk s2 em =>
    rw [hstep] at htab
    have h2 : keysUnique s2 := keysUnique_of_tablesUnchanged htab h
    cases em with
    | none => exact h2
    | some r =>
      exact keysUnique_of_tablesUnchanged
        (tablesUnchanged_of_slots (remove_multi_slots_only r.1 _)).1
        (process_dm1_keysUnique cfg r.1 r.2.1 r.2.2 timestamp s2 h2)

theorem process_dtc_frame_keysUnique (cfg : DtcParseConfig) (can_id : Nat) (data : List Nat)
    (timestamp : Nat) (s : ParserState) (h : keysUnique s) :
    keysUnique (process_dtc_frame cfg can_id data timestamp s) := by
  by_cases hm : s.dtc_mutex_taken
  · simpa [process_dtc_frame, take_dtc_mutex, hm] using h
  · have ht1 : keysUnique { s with dtc_mutex_taken := true } := h
    simp only [process_dtc_frame, take_dtc_mutex, hm, if_false, Bool.false_eq_true, if_true]
    split
    · exact process_dm1_keysUnique cfg _ _ _ _ _ ht1
    · split
      · split
        · split
          · exact keysUnique_of_tablesUnchanged
              (tablesUnchanged_of_slots (handle_tp_cm_slots_only _ _ _ _)).1 ht1
          · exact ht1
        · exact ht1
      · split
        · exact handle_tp_dt_keysUnique cfg _ _ _ _ ht1
        · exact ht1

theorem remove_inactive_keysUnique (cfg : DtcParseConfig) (timestamp : Nat) (s : ParserState)
    (h : keysUnique s) : keysUnique (remove_inactive_dtcs cfg timestamp s) := by
  have hsub : ((remove_inactive_dtcs cfg timestamp s).candidate_dtcs ++
      (remove_inactive_dtcs cfg timestamp s).active_dtcs).Sublist
      (s.candidate_dtcs ++ s.active_dtcs) := by
    rw [remove_inactive_sweep_eq]
    exact List.Sublist.append (List.filter_sublist _) (List.filter_sublist _)
  exact List.Sublist.nodup (List.Sublist.map dtcKey hsub) h

theorem check_dtcs_keysUnique (cfg : DtcParseConfig) (timestamp : Nat) (s : ParserState)
    (h : keysUnique s) : keysUnique (check_dtcs cfg timestamp s).1 := by
  by_cases hm : s.dtc_mutex_taken
  · simpa [check_dtcs, take_dtc_mutex, hm] using h
  · have h1 : keysUnique (remove_inactive_dtcs cfg timestamp { s with dtc_mutex_taken := true }) :=
      remove_inactive_keysUnique cfg timestamp _ h
    have h2 : keysUnique (remove_incomplete_multi_frame_message cfg timestamp
        (remove_inactive_dtcs cfg timestamp { s with dtc_mutex_taken := true })) :=
      keysUnique_of_tablesUnchanged
        (tablesUnchanged_of_slots (remove_incomplete_slots_only cfg timestamp _)).1 h1
    simp only [check_dtcs, take_dtc_mutex, hm, if_false, Bool.false_eq_true, if_true]
    split
    · exact h2
    · exact h2

theorem clear_dtcs_keysUnique (s : ParserState) (h : keysUnique s) :
    keysUnique (clear_dtcs s) := by
  by_cases hm : s.dtc_mutex_taken
  · simpa [clear_dtcs, take_dtc_mutex, hm] using h
  · simp [clear_dtcs, take_dtc_mutex, give_dtc_mutex, hm, keysUnique]

/-- C4: for every sequence of frames, ticks and resets applied through the
public API from the initial state, at every instant no two records of the union
of the candidate and active lists share the identity `(src, spn, fmi)`: every
operation (observe, promote, age, clear) preserves the uniqueness. -/
theorem exec_keysUnique (cfg : DtcParseConfig) (cb : Bool) (events : List Event) :
    keysUnique (execEvents cfg events (initState cb)) := by
  suffices hstep : ∀ (l : List Event) (s : ParserState), keysUnique s →
      keysUnique (execEvents cfg l s) by
    apply hstep
    simp [keysUnique, initState]
  intro l
  induction l with
  | nil =>
    intro s h
    exact h
  | cons e rest ih =>
    intro s h
    simp only [execEvents, List.foldl_cons]
    apply ih
    cases e with
    | frame can_id data timestamp => exact process_dtc_frame_keysUnique cfg can_id data timestamp s h
    | tick timestamp => exact check_dtcs_keysUnique cfg timestamp s h
    | clearAll => exact clear_dtcs_keysUnique s h

/- ------------------------------------------------------------------ -/
/- Change-flag discipline (C9): preservation lemmas.                  -/
/- ------------------------------------------------------------------ -/

theorem monoFlag_refl (s : ParserState) : monoFlag s s :=
  ⟨le_refl _, by simp, rfl⟩

theorem monoFlag_trans {s1 s2 s3 : ParserState} (h1 : monoFlag s1 s2) (h2 : monoFlag s2 s3) :
    monoFlag s1 s3 := by
  obtain ⟨l1, f1, c1⟩ := h1
  obtain ⟨l2, f2, c2⟩ := h2
  refine ⟨le_trans l1 l2, ?_, c2.trans c1⟩
  rw [f2, f1]
  by_cases h12 : s1.active_dtcs.length = s2.active_dtcs.length <;>
    by_cases h23 : s2.active_dtcs.length = s3.active_dtcs.length <;>
    by_cases h13 : s1.active_dtcs.length = s3.active_dtcs.length <;>
    (simp [h12, h23, h13]; try omega)

theorem monoFlag_of_tablesUnchanged {s s2 : ParserState}
    (h : tablesUnchanged s s2 ∧ s2.dtc_mutex_taken = s.dtc_mutex_taken ∧
      s2.callback_registered = s.callback_registered) : monoFlag s s2 := by
  refine ⟨le_of_eq (by rw [h.1.2.1]), ?_, h.2.2⟩
  rw [h.1.2.2, h.1.2.1]
  simp

theorem flag_append_take (P acts : List DTC_Info) :
    (!P.isEmpty && decide (acts.length < MAX_ACTIVE_DTCS)) =
      decide (acts.length ≠ (acts ++ P.take (MAX_ACTIVE_DTCS - acts.length)).length) := by
  have hlen : (acts ++ P.take (MAX_ACTIVE_DTCS - acts.length)).length =
      acts.length + min (MAX_ACTIVE_DTCS - acts.length) P.length := by
    simp [List.length_append, List.length_take]
  rw [hlen]
  rcases P with _ | ⟨p, P⟩
  · simp
  · simp only [List.isEmpty_cons, Bool.not_false, Bool.true_and]
    have hiff : (acts.length < MAX_ACTIVE_DTCS) ↔
        (acts.length ≠ acts.length + min (MAX_ACTIVE_DTCS - acts.length) (p :: P).length) := by
      simp only [List.length_cons]
      omega
    exact decide_eq_decide.mpr hiff

theorem promoteLoop_flag_lens (cfg : DtcParseConfig) (timestamp : Nat)
    (cands acts : List DTC_Info) (changed : Bool) :
    acts.length ≤ (promoteLoop cfg timestamp cands acts changed).2.1.length ∧
    (promoteLoop cfg timestamp cands acts changed).2.2 =
      (changed || decide (acts.length ≠ (promoteLoop cfg timestamp cands acts changed).2.1.length)) := by
  rw [promoteLoop_spec]
  dsimp only
  constructor
  · simp [List.length_append]
  · rw [flag_append_take]

theorem update_dtc_status_monoFlag (cfg : DtcParseConfig)
    (timestamp src spn fmi cm oc mil rsl awl pl : Nat) (s : ParserState) :
    monoFlag s (update_dtc_status cfg timestamp src spn fmi cm oc mil rsl awl pl s) := by
  unfold update_dtc_status monoFlag
  by_cases hA : (find_dtc s.active_dtcs src spn fmi).isSome = true
  · simp only [hA, if_true]
    have hlen := update_first_match_length (keyMatches src spn fmi)
      (refresh_dtc timestamp oc mil rsl awl pl) s.active_dtcs
    have hp := promoteLoop_flag_lens cfg timestamp s.candidate_dtcs
      (update_first_match (keyMatches src spn fmi)
        (refresh_dtc timestamp oc mil rsl awl pl) s.active_dtcs) s.changed_dtc_list
    rw [hlen] at hp
    exact ⟨hp.1, hp.2, by trivial⟩
  · by_cases hC : (find_dtc s.candidate_dtcs src spn fmi).isSome = true
    · simp only [hA, hC, if_true, if_false, Bool.false_eq_true]
      refine ⟨?_, ?_, by trivial⟩
      · exact (promoteLoop_flag_lens cfg timestamp _ s.active_dtcs s.changed_dtc_list).1
      · exact (promoteLoop_flag_lens cfg timestamp _ s.active_dtcs s.changed_dtc_list).2
    · simp only [hA, hC, if_false, Bool.false_eq_true]
      refine ⟨?_, ?_, by trivial⟩
      · exact (promoteLoop_flag_lens cfg timestamp _ s.active_dtcs s.changed_dtc_list).1
      · exact (promoteLoop_flag_lens cfg timestamp _ s.active_dtcs s.changed_dtc_list).2

theorem foldl_dm1Step_monoFlag (cfg : DtcParseConfig) (src mil rsl awl pl : Nat)
    (data : List Nat) (timestamp : Nat) :
    ∀ (offs : List Nat) (s : ParserState),
      monoFlag s (offs.foldl (dm1Step cfg src mil rsl awl pl data timestamp) s) := by
  intro offs
  induction offs with
  | nil =>
    intro s
    exact monoFlag_refl s
  | cons i rest ih =>
    intro s
    simp only [List.foldl_cons]
    exact monoFlag_trans (update_dtc_status_monoFlag cfg timestamp src _ _ _ _ mil rsl awl pl s)
      (ih _)

theorem process_dm1_monoFlag (cfg : DtcParseConfig) (can_id : Nat) (data : List Nat)
    (length timestamp : Nat) (s : ParserState) :
    monoFlag s (process_dm1_message cfg can_id data length timestamp s) := by
  unfold process_dm1_message
  by_cases h6 : length < 6
  · simp only [h6, if_true]
    exact monoFlag_refl s
  · by_cases hz : dm1_spn data 2 = 0
    · simp only [h6, hz, if_true, if_false]
      exact monoFlag_refl s
    · simp only [h6, hz, if_false]
      rw [dm1Loop_eq_foldl cfg _ _ _ _ _ data length timestamp (length - 2 - 2) 2 s (by omega)]
      exact foldl_dm1Step_monoFlag cfg _ _ _ _ _ data timestamp _ s

theorem handle_tp_dt_monoFlag (cfg : DtcParseConfig) (can_id : Nat) (data : List Nat)
    (timestamp : Nat) (s : ParserState) :
    monoFlag s (handle_tp_dt_message cfg can_id data timestamp s) := by
  unfold handle_tp_dt_message
  have htab := tablesUnchanged_of_slots (handle_tp_dt_step_slots_only can_id data timestamp s)
  cases hstep : handle_tp_dt_step can_id data timestamp s with
  | mk s2 em =>
    rw [hstep] at htab
    have h2 : monoFlag s s2 := monoFlag_of_tablesUnchanged htab
    cases em with
    | none => exact h2
    | some r =>
      exact monoFlag_trans h2 (monoFlag_trans
        (process_dm1_monoFlag cfg r.1 r.2.1 r.2.2 timestamp s2)
        (monoFlag_of_tablesUnchanged (tablesUnchanged_of_slots (remove_multi_slots_only r.1 _))))

theorem monoFlag_take {s : ParserState} : monoFlag s { s with dtc_mutex_taken := true } :=
  ⟨le_refl _, by simp, rfl⟩

theorem monoFlag_wrap {s x : ParserState}
    (h : monoFlag { s with dtc_mutex_taken := true } x) : monoFlag s (give_dtc_mutex x) := by
  unfold monoFlag give_dtc_mutex at *
  exact h

theorem process_dtc_frame_monoFlag (cfg : DtcParseConfig) (can_id : Nat) (data : List Nat)
    (timestamp : Nat) (s : ParserState) :
    monoFlag s (process_dtc_frame cfg can_id data timestamp s) := by
  by_cases hm : s.dtc_mutex_taken
  · simp only [process_dtc_frame, take_dtc_mutex, hm, if_true, if_false]
    exact monoFlag_refl s
  · simp only [process_dtc_frame, take_dtc_mutex, hm, if_false, Bool.false_eq_true, if_true]
    apply monoFlag_wrap
    split
    · exact process_dm1_monoFlag cfg _ _ _ _ _
    · split
      · split
        · split
          · exact monoFlag_of_tablesUnchanged
              (tablesUnchanged_of_slots (handle_tp_cm_slots_only _ _ _ _))
          · exact monoFlag_refl _
        · exact monoFlag_refl _
      · split
        · exact handle_tp_dt_monoFlag cfg _ _ _ _
        · exact monoFlag_refl _

theorem process_dtc_frame_mutex (cfg : DtcParseConfig) (can_id : Nat) (data : List Nat)
    (timestamp : Nat) (s : ParserState) :
    (process_dtc_frame cfg can_id data timestamp s).dtc_mutex_taken = s.dtc_mutex_taken := by
  by_cases hm : s.dtc_mutex_taken
  · simp [process_dtc_frame, take_dtc_mutex, hm]
  · simp only [process_dtc_frame, take_dtc_mutex, hm, if_false, Bool.false_eq_true, if_true]
    simp [give_dtc_mutex, hm]

theorem any_iff_filter_length (p : DTC_Info → Bool) :
    ∀ l : List DTC_Info, l.any p = decide (l.length ≠ (l.filter (fun f => !p f)).length) := by
  intro l
  induction l with
  | nil => simp
  | cons f rest ih =>
    by_cases h : p f
    · simp only [List.any_cons, h, Bool.true_or, List.filter_cons, h, Bool.not_true,
        Bool.false_eq_true, if_false, List.length_cons]
      have hle2 : (List.filter (fun g => !p g) rest).length ≤ rest.length :=
        List.length_filter_le _ _
      rw [eq_comm, decide_eq_true_eq]
      omega
    · simp only [List.any_cons, h, Bool.false_or, List.filter_cons, Bool.not_false, if_true,
        List.length_cons, ih]
      exact decide_eq_decide.mpr (by omega)

theorem check_dtcs_spec (cfg : DtcParseConfig) (timestamp : Nat) (s : ParserState)
    (hm : s.dtc_mutex_taken = false) :
    (check_dtcs cfg timestamp s).2.1 =
      (s.changed_dtc_list || stepChangeEvent cfg s (.tick timestamp)) ∧
    (check_dtcs cfg timestamp s).1.changed_dtc_list = false ∧
    (check_dtcs cfg timestamp s).1.dtc_mutex_taken = false ∧
    (check_dtcs cfg timestamp s).1.callback_registered = s.callback_registered ∧
    (check_dtcs cfg timestamp s).2.2 =
      (if ((check_dtcs cfg timestamp s).2.1 && s.callback_registered) = true then
        some (check_dtcs cfg timestamp s).1.active_dtcs
       else none) := by
  have hocc : stepChangeEvent cfg s (Event.tick timestamp) =
      s.active_dtcs.any (activeExpired cfg timestamp) := by
    show decide (s.active_dtcs.length ≠
      (remove_inactive_dtcs cfg timestamp s).active_dtcs.length) = _
    rw [remove_inactive_sweep_eq]
    dsimp only
    rw [eq_comm, any_iff_filter_length]
  have hch2 : (remove_incomplete_multi_frame_message cfg timestamp
      (remove_inactive_dtcs cfg timestamp { s with dtc_mutex_taken := true })).changed_dtc_list =
      (s.changed_dtc_list || s.active_dtcs.any (activeExpired cfg timestamp)) := by
    rw [remove_inactive_sweep_eq]
    rfl
  unfold check_dtcs take_dtc_mutex
  rw [hm]
  simp only [Bool.false_eq_true, if_false, if_true]
  by_cases hch : (remove_incomplete_multi_frame_message cfg timestamp
      (remove_inactive_dtcs cfg timestamp { s with dtc_mutex_taken := true })).changed_dtc_list = true
  · rw [if_pos hch]
    refine ⟨?_, rfl, rfl, rfl, ?_⟩
    · rw [hocc, ← hch2, hch]
    · rw [hch2] at hch
      dsimp only [give_dtc_mutex]
      rw [Bool.true_and]
      rfl
  · rw [if_neg hch]
    rw [hch2] at hch
    have hfalse : (s.changed_dtc_list || s.active_dtcs.any (activeExpired cfg timestamp)) = false :=
      by simpa using hch
    refine ⟨?_, ?_, rfl, rfl, ?_⟩
    · rw [hocc, hfalse]
    · dsimp only [give_dtc_mutex]
      rw [hch2, hfalse]
    · simp

theorem clear_dtcs_fields (s : ParserState) (hm : s.dtc_mutex_taken = false) :
    (clear_dtcs s).changed_dtc_list = s.changed_dtc_list ∧
    (clear_dtcs s).dtc_mutex_taken = false ∧
    (clear_dtcs s).callback_registered = s.callback_registered := by
  unfold clear_dtcs take_dtc_mutex give_dtc_mutex
  rw [hm]
  simp

theorem sinceTrueAux_spec (cfg : DtcParseConfig) :
    ∀ (events : List Event) (s : ParserState),
      s.dtc_mutex_taken = false →
      sinceTrueAux cfg events s s.changed_dtc_list =
        (execEvents cfg events s, (execEvents cfg events s).changed_dtc_list) ∧
      (execEvents cfg events s).dtc_mutex_taken = false ∧
      (execEvents cfg events s).callback_registered = s.callback_registered := by
  intro events
  induction events with
  | nil =>
    intro s hm
    exact ⟨rfl, hm, rfl⟩
  | cons e rest ih =>
    intro s hm
    have hexec : execEvents cfg (e :: rest) s = execEvents cfg rest (stepEv cfg s e) := by
      simp [execEvents]
    have hkey : (stepEv cfg s e).dtc_mutex_taken = false ∧
        (stepEv cfg s e).callback_registered = s.callback_registered ∧
        sinceTrueAux cfg (e :: rest) s s.changed_dtc_list =
          sinceTrueAux cfg rest (stepEv cfg s e) (stepEv cfg s e).changed_dtc_list := by
      cases e with
      | frame can_id data timestamp =>
        have hmono := process_dtc_frame_monoFlag cfg can_id data timestamp s
        refine ⟨?_, hmono.2.2, ?_⟩
        · dsimp only [stepEv]
          rw [process_dtc_frame_mutex]
          exact hm
        · simp only [sinceTrueAux]
          dsimp only [stepEv, stepChangeEvent]
          rw [← hmono.2.1]
      | tick timestamp =>
        have hc := check_dtcs_spec cfg timestamp s hm
        refine ⟨hc.2.2.1, hc.2.2.2.1, ?_⟩
        simp only [sinceTrueAux]
        dsimp only [stepEv]
        rw [hc.2.1, ← hc.1]
        cases hres : (check_dtcs cfg timestamp s).2.1 <;> simp [hres]
      | clearAll =>
        have hc := clear_dtcs_fields s hm
        refine ⟨hc.2.1, hc.2.2, ?_⟩
        simp only [sinceTrueAux]
        dsimp only [stepEv, stepChangeEvent]
        rw [hc.1]
        simp
    obtain ⟨hmut, hcb, haux⟩ := hkey
    have hrec := ih (stepEv cfg s e) hmut
    rw [hexec, haux]
    exact ⟨hrec.1, hrec.2.1, hrec.2.2.trans hcb⟩

/-- C9: over any stimulus sequence from the initial state, a tick returns true
iff a change event — a promotion entered the active list, or an active DTC aged
out, including the tick's own aging sweep — occurred since the previous tick
that returned true (attribute-only refreshes of existing active DTCs are not
change events); when it returns true the registered subscriber is handed the
current active list in the same call, and the changed flag is cleared exactly
on that delivery (it is false after every tick). -/
theorem check_dtcs_change_discipline (cfg : DtcParseConfig) (cb : Bool)
    (events : List Event) (timestamp : Nat) :
    (check_dtcs cfg timestamp (execEvents cfg events (initState cb))).2.1 =
      (specChangedSinceLastTrueTick cfg cb events ||
        stepChangeEvent cfg (execEvents cfg events (initState cb)) (.tick timestamp)) ∧
    (check_dtcs cfg timestamp (execEvents cfg events (initState cb))).2.2 =
      (if ((check_dtcs cfg timestamp (execEvents cfg events (initState cb))).2.1 && cb) = true
       then some (check_dtcs cfg timestamp (execEvents cfg events (initState cb))).1.active_dtcs
       else none) ∧
    (check_dtcs cfg timestamp (execEvents cfg events (initState cb))).1.changed_dtc_list =
      false := by
  have hrun := sinceTrueAux_spec cfg events (initState cb) rfl
  have hspec : specChangedSinceLastTrueTick cfg cb events =
      (execEvents cfg events (initState cb)).changed_dtc_list := by
    show (sinceTrueAux cfg events (initState cb) (initState cb).changed_dtc_list).2 = _
    rw [hrun.1]
  have hcheck := check_dtcs_spec cfg timestamp _ hrun.2.1
  refine ⟨?_, ?_, hcheck.2.1⟩
  · rw [hcheck.1, hspec]
  · rw [hcheck.2.2.2.2, hrun.2.2]
    rfl

/- ------------------------------------------------------------------ -/
/- Reassembly correctness (C7).                                       -/
/- ------------------------------------------------------------------ -/

theorem shiftLeft8_or (a b : Nat) (h : b < 256) : (a <<< 8) ||| b = a * 256 + b := by
  have h2 : b < 2 ^ 8 := by omega
  rw [Nat.shiftLeft_eq]
  calc a * 2 ^ 8 ||| b = 2 ^ 8 * a ||| b := by rw [Nat.mul_comm]
    _ = 2 ^ 8 * a + b := (Nat.mul_add_lt_is_or h2 a).symm
    _ = a * 256 + b := by omega

theorem update_dtc_status_slots (cfg : DtcParseConfig)
    (timestamp src spn fmi cm oc mil rsl awl pl : Nat) (s : ParserState) :
    (update_dtc_status cfg timestamp src spn fmi cm oc mil rsl awl pl s).multi_frame_messages =
      s.multi_frame_messages := by
  unfold update_dtc_status
  by_cases hA : (find_dtc s.active_dtcs src spn fmi).isSome = true
  · simp only [hA, if_true]
  · by_cases hC : (find_dtc s.candidate_dtcs src spn fmi).isSome = true
    · simp only [hA, hC, if_true, if_false, Bool.false_eq_true]
    · simp only [hA, hC, if_false, Bool.false_eq_true]

theorem foldl_dm1Step_slots (cfg : DtcParseConfig) (src mil rsl awl pl : Nat)
    (data : List Nat) (timestamp : Nat) :
    ∀ (offs : List Nat) (s : ParserState),
      (offs.foldl (dm1Step cfg src mil rsl awl pl data timestamp) s).multi_frame_messages =
        s.multi_frame_messages := by
  intro offs
  induction offs with
  | nil =>
    intro s
    rfl
  | cons i rest ih =>
    intro s
    simp only [List.foldl_cons]
    rw [ih]
    exact update_dtc_status_slots cfg timestamp src _ _ _ _ mil rsl awl pl s

theorem process_dm1_slots (cfg : DtcParseConfig) (can_id : Nat) (data : List Nat)
    (length timestamp : Nat) (s : ParserState) :
    (process_dm1_message cfg can_id data length timestamp s).multi_frame_messages =
      s.multi_frame_messages := by
  unfold process_dm1_message
  by_cases h6 : length < 6
  · simp [h6]
  · by_cases hz : dm1_spn data 2 = 0
    · simp [h6, hz]
    · simp only [h6, hz, if_false]
      rw [dm1Loop_eq_foldl cfg _ _ _ _ _ data length timestamp (length - 2 - 2) 2 s (by omega)]
      exact foldl_dm1Step_slots cfg _ _ _ _ _ data timestamp _ s

theorem flat7_length (fs : List (List Nat)) : (flat7 fs).length = 7 * fs.length := by
  induction fs with
  | nil => rfl
  | cons f rest ih =>
    have hcons : flat7 (f :: rest) = frag7 f ++ flat7 rest := by
      simp [flat7]
    have hfrag : (frag7 f).length = 7 := by
      simp [frag7]
    rw [hcons, List.length_append, hfrag, ih, List.length_cons]
    ring

theorem memcpy7_eq (buf : List Nat) (offset : Nat) (frame : List Nat) :
    memcpy7 buf offset frame = buf.take offset ++ frag7 frame ++ buf.drop (offset + 7) := rfl

theorem take_getD_succ (frames : List (List Nat)) (j : Nat) (hj : j < frames.length) :
    frames.take (j + 1) = frames.take j ++ [frames.getD j []] := by
  have hsome : frames[j]? = some frames[j] := List.getElem?_eq_getElem hj
  have hgetD : frames.getD j [] = frames[j] := by
    rw [List.getD_eq_getElem?_getD, hsome]
    rfl
  rw [List.take_succ, hsome, hgetD]
  rfl

theorem memcpy7_partialBuf (frames : List (List Nat)) (j : Nat)
    (hj : j < frames.length) (h7 : 7 * (j + 1) ≤ MAX_MULTIFRAME_DATA_SIZE) :
    memcpy7 (partialBuf frames j) (7 * j) (frames.getD j []) = partialBuf frames (j + 1) := by
  have hmax : (MAX_MULTIFRAME_DATA_SIZE : Nat) = 256 := rfl
  have hlenA : (flat7 (frames.take j)).length = 7 * j := by
    rw [flat7_length, List.length_take]
    omega
  rw [memcpy7_eq]
  unfold partialBuf
  rw [take_getD_succ frames j hj]
  have hflat : flat7 (frames.take j ++ [frames.getD j []]) =
      flat7 (frames.take j) ++ frag7 (frames.getD j []) := by
    simp [flat7]
  rw [hflat]
  rw [List.take_left' hlenA]
  rw [List.drop_append_eq_append_drop]
  have hdropA : (flat7 (frames.take j)).drop (7 * j + 7) = [] := by
    apply List.drop_eq_nil_of_le
    omega
  rw [hdropA, hlenA, List.drop_replicate, List.nil_append]
  have harith : MAX_MULTIFRAME_DATA_SIZE - 7 * j - (7 * j + 7 - 7 * j) =
      MAX_MULTIFRAME_DATA_SIZE - 7 * (j + 1) := by
    omega
  rw [harith, List.append_assoc]

theorem slotAfter_zero (mid S K ts : Nat) (frames : List (List Nat)) :
    slotAfter mid S K ts frames 0 = initSlot mid S K ts := rfl

theorem dtId_mask (mid : Nat) (hmid : mid < 2 ^ 29) :
    (((mid &&& 0xFF00FFFF) ||| 0x00EB0000) &&& 0x1FFFFFFF) =
      ((mid &&& 0xFF00FFFF) ||| 0x00EB0000) := by
  have h1 : (mid &&& 0xFF00FFFF) < 2 ^ 29 := lt_of_le_of_lt Nat.and_le_left hmid
  have h2 : ((mid &&& 0xFF00FFFF) ||| 0x00EB0000) < 2 ^ 29 :=
    Nat.or_lt_two_pow h1 (by norm_num)
  have hmask : (0x1FFFFFFF : Nat) = 2 ^ 29 - 1 := by norm_num
  rw [hmask, Nat.and_pow_two_sub_one_eq_mod, Nat.mod_eq_of_lt h2]


theorem withSlots_slots (s : ParserState) (slots : List MultiFrameMessage) :
    (withSlots s slots).multi_frame_messages = slots := rfl

theorem handle_tp_cm_bam (cb : Bool) (cm_id S K ts : Nat)
    (hS : S ≤ MAX_MULTIFRAME_DATA_SIZE) (hK : K < 256) :
    handle_tp_cm_message cm_id (bamData S K) ts (initState cb) =
      withSlots (initState cb)
        (initSlot (cm_id &&& 0x1FFFFFFF) S K ts :: List.replicate 3 emptySlot) := by
  have hmax : (MAX_MULTIFRAME_DATA_SIZE : Nat) = 256 := rfl
  have hctrl : get8 (bamData S K) 0 = 0x20 := by
    simp [bamData, get8]
  have h1 : get8 (bamData S K) 1 = S % 256 := by
    simp [bamData, get8]
  have h2 : get8 (bamData S K) 2 = S / 256 := by
    have hd : S / 256 % 256 = S / 256 := by omega
    simp [bamData, get8, hd]
  have hsize : ((get8 (bamData S K) 2 <<< 8) ||| get8 (bamData S K) 1) = S := by
    rw [h1, h2, shiftLeft8_or _ _ (by omega)]
    omega
  have hnum : get8 (bamData S K) 3 = K := by
    have hd : K % 256 = K := by omega
    simp [bamData, get8, hd]
  have hcap : ¬ (MAX_MULTIFRAME_DATA_SIZE < S) := by omega
  simp only [handle_tp_cm_message, hctrl, hsize, hnum, if_true, hcap, if_false]
  have hrep : (initState cb).multi_frame_messages =
      emptySlot :: emptySlot :: emptySlot :: emptySlot :: [] := rfl
  rw [hrep]
  by_cases hmid : cm_id &&& 0x1FFFFFFF = 0
  · simp [List.findIdx?_cons, emptySlot, hmid, List.set_cons_zero, initState, withSlots]
  · have hne : (emptySlot.message_id == cm_id &&& 0x1FFFFFFF) = false := by
      simp only [emptySlot]
      simp only [beq_eq_false_iff_ne, ne_eq]
      exact fun h => hmid h.symm
    have hz : (emptySlot.message_id == (0 : Nat)) = true := by
      simp [emptySlot]
    simp [List.findIdx?_cons, hne, hz, List.set_cons_zero, initState, withSlots]

theorem handle_tp_dt_step_partial (mid S K ts : Nat) (frames : List (List Nat))
    (j : Nat) (s : ParserState) (hmid : mid < 2 ^ 29)
    (hslots : s.multi_frame_messages =
      slotAfter mid S K ts frames j :: List.replicate 3 emptySlot)
    (hj : j < frames.length) (hK : 7 * K ≤ MAX_MULTIFRAME_DATA_SIZE) (hjK : j < K)
    (hpn : get8 (frames.getD j []) 0 = j + 1) :
    handle_tp_dt_step ((mid &&& 0xFF00FFFF) ||| 0x00EB0000) (frames.getD j []) ts s =
      (withSlots s (slotAfter mid S K ts frames (j + 1) :: List.replicate 3 emptySlot),
       if j + 1 = K then
         some (((mid &&& 0xFF00FFFF) ||| 0x00EB0000), partialBuf frames (j + 1), S)
       else none) := by
  have hmax : (MAX_MULTIFRAME_DATA_SIZE : Nat) = 256 := rfl
  have hKle : K ≤ 36 := by omega
  have hfind : List.findIdx? (fun m => m.message_id_tp_dt ==
        (((mid &&& 0xFF00FFFF) ||| 0x00EB0000) &&& 0x1FFFFFFF))
      (slotAfter mid S K ts frames j :: List.replicate 3 emptySlot) = some 0 := by
    rw [dtId_mask mid hmid, List.findIdx?_cons]
    simp [slotAfter]
  have hmod : (j + 1) % U32 = j + 1 := Nat.mod_eq_of_lt (by
    have hU : (U32 : Nat) = 2 ^ 32 := rfl
    omega)
  have hoff : sub32 (j + 1) 1 * 7 % U32 = 7 * j := by
    unfold sub32 U32
    omega
  simp only [handle_tp_dt_step, hslots, hfind, List.getD_cons_zero]
  rw [dtId_mask mid hmid]
  rw [hpn]
  have hrecv : (slotAfter mid S K ts frames j).received_packets = j := rfl
  rw [hrecv, hmod, if_neg (by omega : ¬ (j + 1 ≠ j + 1))]
  rw [hoff]
  have hdata : (slotAfter mid S K ts frames j).data = partialBuf frames j := rfl
  rw [hdata, memcpy7_partialBuf frames j hj (by omega)]
  rw [List.set_cons_zero]
  have hm2 : ({ slotAfter mid S K ts frames j with
      data := partialBuf frames (j + 1)
      received_packets := j + 1
      last_seen := ts } : MultiFrameMessage) = slotAfter mid S K ts frames (j + 1) := rfl
  rw [hm2]
  have htot : (slotAfter mid S K ts frames j).total_size = S := rfl
  have hnumJ : (slotAfter mid S K ts frames j).num_packets = K := rfl
  rw [htot, hnumJ]
  by_cases hend : j + 1 = K
  · rw [if_pos hend, if_pos hend]
    rfl
  · rw [if_neg hend, if_neg hend]
    rfl

theorem runFragments_take (cfg : DtcParseConfig) (mid S K ts : Nat)
    (frames : List (List Nat)) (s : ParserState) (hmid : mid < 2 ^ 29)
    (hK : 7 * K ≤ MAX_MULTIFRAME_DATA_SIZE) (hlen : frames.length = K)
    (hseq : ∀ j, j < K → get8 (frames.getD j []) 0 = j + 1) :
    ∀ n, n ≤ K - 1 →
      runFragments cfg ((mid &&& 0xFF00FFFF) ||| 0x00EB0000) ts (frames.take n)
        (withSlots s (slotAfter mid S K ts frames 0 :: List.replicate 3 emptySlot)) =
      withSlots s (slotAfter mid S K ts frames n :: List.replicate 3 emptySlot) := by
  intro n
  induction n with
  | zero =>
    intro _
    rfl
  | succ n ih =>
    intro hn
    have hnK : n < K := by omega
    have hnlen : n < frames.length := by omega
    rw [take_getD_succ frames n hnlen]
    unfold runFragments
    rw [List.foldl_append, List.foldl_cons, List.foldl_nil]
    have hpre := ih (by omega)
    unfold runFragments at hpre
    rw [hpre]
    have hstep := handle_tp_dt_step_partial mid S K ts frames n
      (withSlots s (slotAfter mid S K ts frames n :: List.replicate 3 emptySlot))
      hmid rfl hnlen hK hnK (hseq n hnK)
    rw [if_neg (by omega : ¬ (n + 1 = K))] at hstep
    unfold handle_tp_dt_message
    rw [hstep]
    rfl

/-- C7 counterexample: a BAM of declared size 8 completed by a single fragment
dispatches an 8-byte payload — the 7 fragment bytes padded with a zero — which
is not the 7-byte truncation of the fragment concatenation the claim asserts. -/
theorem reassembly_payload_not_truncation_at_8 :
    ((handle_tp_dt_step 0x1CEBFF00 [1, 0xAA, 0xBB, 0xCC, 0xDD, 0xEE, 0x11, 0x22] 0
        (handle_tp_cm_message 0x1CECFF00 (bamData 8 1) 0 (initState true))).2.map
      (fun r => r.2.1.take r.2.2)) =
      some [0xAA, 0xBB, 0xCC, 0xDD, 0xEE, 0x11, 0x22, 0] ∧
    (flat7 [[1, 0xAA, 0xBB, 0xCC, 0xDD, 0xEE, 0x11, 0x22]]).take 8 =
      [0xAA, 0xBB, 0xCC, 0xDD, 0xEE, 0x11, 0x22] ∧
    ([0xAA, 0xBB, 0xCC, 0xDD, 0xEE, 0x11, 0x22, 0] : List Nat) ≠
      [0xAA, 0xBB, 0xCC, 0xDD, 0xEE, 0x11, 0x22] := by
  refine ⟨rfl, rfl, by decide⟩

/-- C7 (amended): for every BAM announcing size `S ≤ cap` and `K ≥ 1` packets
with `7K ≤ cap`, if the K matching TP.DT fragments arrive with consecutive
packet numbers `1..K`, the K-th fragment dispatches to the DM1 parser a payload
of exactly `S` bytes equal to the concatenation of bytes 1..7 of each fragment
in order, truncated to `S` bytes and zero-padded if the concatenation is
shorter; afterwards the slot is released. -/
theorem reassembly_payload_spec (cfg : DtcParseConfig) (cb : Bool) (cm_id S K ts : Nat)
    (frames : List (List Nat))
    (hS : S ≤ MAX_MULTIFRAME_DATA_SIZE) (hK1 : 1 ≤ K)
    (hK : 7 * K ≤ MAX_MULTIFRAME_DATA_SIZE)
    (hlen : frames.length = K)
    (hseq : ∀ j, j < K → get8 (frames.getD j []) 0 = j + 1) :
    (handle_tp_dt_step (((cm_id &&& 0x1FFFFFFF) &&& 0xFF00FFFF) ||| 0x00EB0000)
        (frames.getD (K - 1) []) ts
        (runFragments cfg (((cm_id &&& 0x1FFFFFFF) &&& 0xFF00FFFF) ||| 0x00EB0000) ts
          (frames.take (K - 1))
          (handle_tp_cm_message cm_id (bamData S K) ts (initState cb)))).2 =
      some ((((cm_id &&& 0x1FFFFFFF) &&& 0xFF00FFFF) ||| 0x00EB0000),
        partialBuf frames K, S) ∧
    (partialBuf frames K).take S =
      (flat7 frames ++ List.replicate MAX_MULTIFRAME_DATA_SIZE 0).take S ∧
    (runFragments cfg (((cm_id &&& 0x1FFFFFFF) &&& 0xFF00FFFF) ||| 0x00EB0000) ts frames
        (handle_tp_cm_message cm_id (bamData S K) ts (initState cb))).multi_frame_messages =
      List.replicate MAX_CONCURRENT_MULTIFRAME emptySlot := by
  have hmax : (MAX_MULTIFRAME_DATA_SIZE : Nat) = 256 := rfl
  have hmid : (cm_id &&& 0x1FFFFFFF) < 2 ^ 29 := by
    have hle : cm_id &&& 0x1FFFFFFF ≤ 0x1FFFFFFF := Nat.and_le_right
    omega
  have hbam0 : handle_tp_cm_message cm_id (bamData S K) ts (initState cb) =
      withSlots (initState cb)
        (slotAfter (cm_id &&& 0x1FFFFFFF) S K ts frames 0 :: List.replicate 3 emptySlot) := by
    rw [handle_tp_cm_bam cb cm_id S K ts hS (by omega), slotAfter_zero]
  have hpre := runFragments_take cfg (cm_id &&& 0x1FFFFFFF) S K ts frames (initState cb)
    hmid hK hlen hseq (K - 1) (le_refl _)
  have hstepK := handle_tp_dt_step_partial (cm_id &&& 0x1FFFFFFF) S K ts frames (K - 1)
    (withSlots (initState cb)
      (slotAfter (cm_id &&& 0x1FFFFFFF) S K ts frames (K - 1) :: List.replicate 3 emptySlot))
    hmid rfl (by omega) hK (by omega) (hseq (K - 1) (by omega))
  have hK1' : K - 1 + 1 = K := by omega
  rw [hK1', if_pos rfl] at hstepK
  refine ⟨?_, ?_, ?_⟩
  · rw [hbam0, hpre, hstepK]
  · unfold partialBuf
    have htakeK : frames.take K = frames := by
      rw [← hlen, List.take_length]
    rw [htakeK]
    rw [List.take_append_eq_append_take, List.take_append_eq_append_take]
    have hflen : (flat7 frames).length = 7 * K := by
      rw [flat7_length, hlen]
    rw [List.take_replicate, List.take_replicate, hflen]
    congr 2
    omega
  · have hsplit : frames = frames.take (K - 1) ++ [frames.getD (K - 1) []] := by
      have h1 := take_getD_succ frames (K - 1) (by omega)
      rw [hK1'] at h1
      have htakeK : frames.take K = frames := by
        rw [← hlen, List.take_length]
      rw [htakeK] at h1
      exact h1
    rw [hbam0]
    unfold runFragments
    unfold runFragments at hpre
    set st := withSlots (initState cb)
      (slotAfter (cm_id &&& 0x1FFFFFFF) S K ts frames 0 :: List.replicate 3 emptySlot) with hst
    conv_lhs => rw [hsplit]
    rw [List.foldl_append, List.foldl_cons, List.foldl_nil, hpre]
    unfold handle_tp_dt_message
    rw [hstepK]
    dsimp only
    have hdm1 := process_dm1_slots cfg
      (((cm_id &&& 0x1FFFFFFF) &&& 0xFF00FFFF) ||| 0x00EB0000)
      (partialBuf frames K) S ts
      (withSlots
        (withSlots (initState cb)
          (slotAfter (cm_id &&& 0x1FFFFFFF) S K ts frames (K - 1) :: List.replicate 3 emptySlot))
        (slotAfter (cm_id &&& 0x1FFFFFFF) S K ts frames K :: List.replicate 3 emptySlot))
    unfold remove_multi_frame_message
    rw [hdm1, withSlots_slots]
    rw [List.findIdx?_cons]
    have hbeq : ((slotAfter (cm_id &&& 0x1FFFFFFF) S K ts frames K).message_id_tp_dt ==
        (((cm_id &&& 0x1FFFFFFF) &&& 0xFF00FFFF) ||| 0x00EB0000)) = true := by
      simp [slotAfter]
    rw [hbeq, if_pos rfl]
    dsimp only
    rw [List.set_cons_zero]
    rfl

/-- Witness for C7: the amended reassembly statement instantiated at a concrete
two-fragment BAM of size 12. -/
theorem reassembly_payload_spec_witness :
    (12 ≤ MAX_MULTIFRAME_DATA_SIZE ∧ (1 : Nat) ≤ 2 ∧ 7 * 2 ≤ MAX_MULTIFRAME_DATA_SIZE ∧
      ([[1, 255, 0, 1, 0, 5, 0, 2], [2, 0, 0, 0, 0, 0, 0, 0]] : List (List Nat)).length = 2 ∧
      ∀ j, j < 2 →
        get8 (([[1, 255, 0, 1, 0, 5, 0, 2],
          [2, 0, 0, 0, 0, 0, 0, 0]] : List (List Nat)).getD j []) 0 = j + 1) ∧
    ((handle_tp_dt_step (((0x1CECFF00 &&& 0x1FFFFFFF) &&& 0xFF00FFFF) ||| 0x00EB0000)
        (([[1, 255, 0, 1, 0, 5, 0, 2], [2, 0, 0, 0, 0, 0, 0, 0]] : List (List Nat)).getD (2 - 1) []) 0
        (runFragments dtcParseCfg (((0x1CECFF00 &&& 0x1FFFFFFF) &&& 0xFF00FFFF) ||| 0x00EB0000) 0
          (([[1, 255, 0, 1, 0, 5, 0, 2], [2, 0, 0, 0, 0, 0, 0, 0]] : List (List Nat)).take (2 - 1))
          (handle_tp_cm_message 0x1CECFF00 (bamData 12 2) 0 (initState true)))).2 =
      some ((((0x1CECFF00 &&& 0x1FFFFFFF) &&& 0xFF00FFFF) ||| 0x00EB0000),
        partialBuf [[1, 255, 0, 1, 0, 5, 0, 2], [2, 0, 0, 0, 0, 0, 0, 0]] 2, 12) ∧
     (partialBuf [[1, 255, 0, 1, 0, 5, 0, 2], [2, 0, 0, 0, 0, 0, 0, 0]] 2).take 12 =
      (flat7 [[1, 255, 0, 1, 0, 5, 0, 2], [2, 0, 0, 0, 0, 0, 0, 0]] ++
        List.replicate MAX_MULTIFRAME_DATA_SIZE 0).take 12 ∧
     (runFragments dtcParseCfg (((0x1CECFF00 &&& 0x1FFFFFFF) &&& 0xFF00FFFF) ||| 0x00EB0000) 0
        [[1, 255, 0, 1, 0, 5, 0, 2], [2, 0, 0, 0, 0, 0, 0, 0]]
        (handle_tp_cm_message 0x1CECFF00 (bamData 12 2) 0 (initState true))).multi_frame_messages =
      List.replicate MAX_CONCURRENT_MULTIFRAME emptySlot) :=
  ⟨⟨by decide, by decide, by decide, by decide, by decide⟩,
   reassembly_payload_spec dtcParseCfg true 0x1CECFF00 12 2 0
     [[1, 255, 0, 1, 0, 5, 0, 2], [2, 0, 0, 0, 0, 0, 0, 0]]
     (by decide) (by decide) (by decide) (by decide) (by decide)⟩

end DtcParser
